import Mathlib

/-!
# Shopping cart: the transaction layer over the key-value store

A shallow embedding of `src/shopping/kvstore_service.go` (`SubmitOrder`, `PayOrder`)
together with the library functions it calls (`strconv.Itoa`, `strconv.Atoi`) and the
key constants of `src/shopping/shopping-service.go`.

* Go `int` is 64 bits wide: integers are `Int`, and every arithmetic result is reduced
  into `[-2^63, 2^63)` by `wrapInt`.
* `sks.Data` is a Go `map[string]string`: a function `String → Option String`.
* A Go `map[int]int` (the cart detail) is a list of pairs with pairwise distinct keys;
  a `range` loop visits the pairs in list order.
* Both operations hold the write lock for their whole body, so an operation is a pure
  function from the store before the call to the reply and the store after it.
* `SubmitOrderWalk` makes the visiting order of the two `range` loops a parameter, and
  `SubmitOrderCart` makes the parsed cart a parameter.
* The scalar operations `Get`, `Put` and `Del` of the store have no body in the source
  tree and are modelled from the specification.
-/

namespace Shopping

/-! ## Go `int` -/

/-- Smallest value of a 64-bit Go `int`. -/
def minInt : Int := -9223372036854775808

/-- Largest value of a 64-bit Go `int`. -/
def maxInt : Int := 9223372036854775807

/-- Reduction of a mathematical integer to the 64-bit two's complement range. -/
def wrapInt (z : Int) : Int :=
  (z + 9223372036854775808) % 18446744073709551616 - 9223372036854775808

/-- Go `a + b` on `int`. -/
def goAdd (a b : Int) : Int := wrapInt (a + b)

/-- Go `a - b` on `int`. -/
def goSub (a b : Int) : Int := wrapInt (a - b)

/-- Go `a * b` on `int`. -/
def goMul (a b : Int) : Int := wrapInt (a * b)

/-! ## `strconv` -/

/-- The error of a `strconv` parse (`nil`, `ErrSyntax`, `ErrRange`). -/
inductive NumError where
  | ok
  | badSyntax
  | badRange
  deriving DecidableEq, Repr

/-- Largest `uint64`. -/
def maxUint64 : Nat := 18446744073709551615

/-- The digit loop of `strconv.ParseUint(s, 10, 64)`, started with accumulator `n`. -/
def parseUintLoop : Nat → List Char → Nat × NumError
  | n, [] => (n, NumError.ok)
  | n, c :: cs =>
    if '0' ≤ c ∧ c ≤ '9' then
      if 1844674407370955162 ≤ n then (maxUint64, NumError.badRange)
      else
        let n1 := n * 10 + (c.toNat - 48)
        if maxUint64 < n1 then (maxUint64, NumError.badRange)
        else parseUintLoop n1 cs
    else (0, NumError.badSyntax)

/-- Embedding of `strconv.ParseUint(s, 10, 64)`. -/
def ParseUint (s : List Char) : Nat × NumError :=
  match s with
  | [] => (0, NumError.badSyntax)
  | _ :: _ => parseUintLoop 0 s

/-- The range check at the end of `strconv.ParseInt`: from the sign and the result of
`ParseUint` to the signed value. A syntax error gives 0, a value out of the `int64`
range is clamped to the nearest bound. -/
def signedOfUint (neg : Bool) (r : Nat × NumError) : Int × NumError :=
  if r.2 = NumError.badSyntax then (0, NumError.badSyntax)
  else if neg = false ∧ 9223372036854775808 ≤ r.1 then
    (9223372036854775807, NumError.badRange)
  else if neg = true ∧ 9223372036854775808 < r.1 then
    (-9223372036854775808, NumError.badRange)
  else (if neg = true then -(r.1 : Int) else (r.1 : Int), NumError.ok)

/-- Embedding of `strconv.ParseInt(s, 10, 0)` on a 64-bit platform. -/
def ParseInt (s : List Char) : Int × NumError :=
  match s with
  | [] => (0, NumError.badSyntax)
  | c :: cs =>
    if c = '+' then signedOfUint false (ParseUint cs)
    else if c = '-' then signedOfUint true (ParseUint cs)
    else signedOfUint false (ParseUint (c :: cs))

/-- Embedding of `strconv.Atoi` with the error dropped, as every call site does
(`iValue, _ := strconv.Atoi(Value)`). The short-string fast path of `Atoi` returns the
same value as `ParseInt`. -/
def Atoi (s : String) : Int := (ParseInt s.data).1

/-- Embedding of `strconv.Itoa`: the decimal text of a Go `int`. -/
def Itoa (i : Int) : String :=
  if i < 0 then "-" ++ Nat.repr i.natAbs else Nat.repr i.natAbs

/-! ## Keys, statuses and the store -/

def TokenKeyPrefix : String := "token:"
def OrderKeyPrefix : String := "order:"
def ItemsStockKeyPrefix : String := "items_stock:"
def ItemsPriceKeyPrefix : String := "items_price:"
def BalanceKeyPrefix : String := "balance:"

def OK : Int := 0
def OutOfStock : Int := 1
def OrderOutOfLimit : Int := 2
def OrderPaid : Int := 3
def BalanceInsufficient : Int := 4

/-- The scalar key space `sks.Data`. -/
abbrev Data := String → Option String

/-- Go `data[k] = v`. -/
def Data.put (data : Data) (k v : String) : Data :=
  fun k1 => if k1 = k then some v else data k1

/-- Go `v, _ := data[k]`: the zero value `""` for an absent key. -/
def Data.read (data : Data) (k : String) : String := (data k).getD ""

/-- A Go `map[int]int`: pairs of item identifier and count, no identifier twice. -/
structure Cart where
  items : List (Int × Int)
  nodup : (items.map Prod.fst).Nodup

/-- The empty map. -/
def Cart.empty : Cart := ⟨[], List.nodup_nil⟩

/-- The arguments of `SubmitOrder`. -/
structure SubmitOrderArgs where
  CartIDStr : String
  UserToken : String
  CartValue : String

/-- The arguments of `PayOrder`; `Delta` is the amount. -/
structure PayOrderArgs where
  OrderIDStr : String
  UserToken : String
  Delta : Int

/-- The functions of package `shopping` that `SubmitOrder` and `PayOrder` call and whose
definitions are not part of the source tree. They are parameters of the embedding. -/
structure Helpers where
  parseCartValue : String → Int × Cart
  composeOrderValue : Bool → Int → Int → Cart → String
  parseOrderValue : String → Bool × Int × Int × Cart
  RootUserToken : String

/-! ## `SubmitOrder` -/

/-- The first loop of `SubmitOrder` (lines 83-92): `true` when some visited item has a
stock counter smaller than the requested count. -/
def stockShort (data : Data) : List (Int × Int) → Bool
  | [] => false
  | (itemID, itemCnt) :: rest =>
    match data (ItemsStockKeyPrefix ++ Itoa itemID) with
    | some Value => if Atoi Value < itemCnt then true else stockShort data rest
    | none => stockShort data rest

/-- Lines 101-105 of `SubmitOrder`: the stock counter of one item, when it exists, is
replaced by the text of its value minus the requested count. -/
def deductItem (data : Data) (itemID itemCnt : Int) : Data :=
  match data (ItemsStockKeyPrefix ++ Itoa itemID) with
  | some Value => data.put (ItemsStockKeyPrefix ++ Itoa itemID) (Itoa (goSub (Atoi Value) itemCnt))
  | none => data

/-- The second loop of `SubmitOrder` (lines 98-109): decrements the stock counters and
accumulates the price, from store `data` and running total `price`. -/
def deductStock : Data → Int → List (Int × Int) → Data × Int
  | data, price, [] => (data, price)
  | data, price, (itemID, itemCnt) :: rest =>
    let data1 := deductItem data itemID itemCnt
    let iprice := Atoi (data1.read (ItemsPriceKeyPrefix ++ Itoa itemID))
    deductStock data1 (goAdd price (goMul itemCnt iprice)) rest

/-- Embedding of `ShoppingKVStore.SubmitOrder`: the reply and the store after the call. -/
def SubmitOrder (h : Helpers) (data : Data) (args : SubmitOrderArgs) : Int × Data :=
  let orderKey := OrderKeyPrefix ++ args.UserToken
  let parsed := h.parseCartValue args.CartValue
  let num := parsed.1
  let cartDetail := parsed.2
  if stockShort data cartDetail.items then (OutOfStock, data)
  else if (data orderKey).isSome then (OrderOutOfLimit, data)
  else
    let r := deductStock data 0 cartDetail.items
    (OK, r.1.put orderKey (h.composeOrderValue false r.2 num cartDetail))

/-! ## `PayOrder` -/

/-- Lines 138-145 of `PayOrder`: credit the root account when it has a balance, then
rewrite the order as paid. -/
def payCredit (h : Helpers) (data : Data) (args : PayOrderArgs)
    (price num : Int) (detail : Cart) : Data :=
  let rootBalanceKey := BalanceKeyPrefix ++ h.RootUserToken
  let orderKey := OrderKeyPrefix ++ args.OrderIDStr
  let data1 :=
    match data rootBalanceKey with
    | some value => data.put rootBalanceKey (Itoa (goAdd (Atoi value) args.Delta))
    | none => data
  data1.put orderKey (h.composeOrderValue true price num detail)

/-- Embedding of `ShoppingKVStore.PayOrder`: the reply and the store after the call. -/
def PayOrder (h : Helpers) (data : Data) (args : PayOrderArgs) : Int × Data :=
  let balanceKey := BalanceKeyPrefix ++ args.UserToken
  let orderKey := OrderKeyPrefix ++ args.OrderIDStr
  let parsed := h.parseOrderValue (data.read orderKey)
  if parsed.1 = true then (OrderPaid, data)
  else
    match data balanceKey with
    | some value =>
      if Atoi value < args.Delta then (BalanceInsufficient, data)
      else
        (OK, payCredit h (data.put balanceKey (Itoa (goSub (Atoi value) args.Delta))) args
          parsed.2.1 parsed.2.2.1 parsed.2.2.2)
    | none => (OK, payCredit h data args parsed.2.1 parsed.2.2.1 parsed.2.2.2)

/-! ## Sequences of calls -/

/-- A call of the transaction layer: one of the two compound operations. -/
inductive Call where
  | submit (args : SubmitOrderArgs)
  | pay (args : PayOrderArgs)

/-- The reply and the store after one call. -/
def Call.run (h : Helpers) (data : Data) : Call → Int × Data
  | Call.submit args => SubmitOrder h data args
  | Call.pay args => PayOrder h data args

/-- The store after a sequence of calls, each holding the lock in turn. -/
def runCalls (h : Helpers) (data : Data) : List Call → Data
  | [] => data
  | c :: cs => runCalls h (c.run h data).2 cs

/-- The store after a sequence of `SubmitOrder` calls. -/
def submitAll (h : Helpers) (data : Data) : List SubmitOrderArgs → Data
  | [] => data
  | a :: rest => submitAll h (SubmitOrder h data a).2 rest

/-! ## Vocabulary of the specification -/

/-- A decimal digit. -/
def isDecDigit (c : Char) : Prop := '0' ≤ c ∧ c ≤ '9'

instance (c : Char) : Decidable (isDecDigit c) := by
  unfold isDecDigit
  infer_instance

/-- The text of a non-negative decimal integer: one or more digits, no sign. -/
def NonNegDecimal (v : String) : Prop := v.data ≠ [] ∧ ∀ c ∈ v.data, isDecDigit c

instance (v : String) : Decidable (NonNegDecimal v) := by
  unfold NonNegDecimal
  infer_instance

/-- Every `items_stock:` counter of the store holds a non-negative decimal integer. -/
def StockNonNeg (data : Data) : Prop :=
  ∀ (suffix v : String), data (ItemsStockKeyPrefix ++ suffix) = some v → NonNegDecimal v

/-- Value of a digit string read left to right from accumulator `a`, without bound. -/
def decVal (a : Nat) (cs : List Char) : Nat :=
  cs.foldl (fun n c => n * 10 + (c.toNat - 48)) a

/-- Unbounded reading of an optionally negated digit string. -/
def decodeInt (cs : List Char) : Int :=
  match cs with
  | '-' :: rest => -(decVal 0 rest : Int)
  | _ => (decVal 0 cs : Int)

/-- The order total in unbounded integers: the sum over the visited items of
count times the price read from `items_price:`, an absent price reading as `""`. -/
def priceSum (data : Data) (items : List (Int × Int)) : Int :=
  (items.map (fun p => p.2 * Atoi (data.read (ItemsPriceKeyPrefix ++ Itoa p.1)))).sum

/-- The outcome of the two-buyer scenario when `first` is served before `second`: OK then
OutOfStock, the stock counter of item 1 at `"0"`, an order key for `first` and none for
`second`. -/
def FirstBuyerWins (h : Helpers) (data : Data) (first second : SubmitOrderArgs) : Prop :=
  (SubmitOrder h data first).1 = OK ∧
    (SubmitOrder h (SubmitOrder h data first).2 second).1 = OutOfStock ∧
    (SubmitOrder h (SubmitOrder h data first).2 second).2 (ItemsStockKeyPrefix ++ Itoa 1) =
      some "0" ∧
    ((SubmitOrder h (SubmitOrder h data first).2 second).2
      (OrderKeyPrefix ++ first.UserToken)).isSome = true ∧
    (SubmitOrder h (SubmitOrder h data first).2 second).2
      (OrderKeyPrefix ++ second.UserToken) = none

/-! ## An instance of the helper functions

The carts and helper functions below fix one choice of the functions that are not in the
source tree, so that the operations can be evaluated on concrete stores. -/

/-- One unit of item 1. -/
def cartOne : Cart := ⟨[(1, 1)], by decide⟩

/-- Minus one unit of item 1. -/
def cartMinusOne : Cart := ⟨[(1, -1)], by decide⟩

/-- One unit of item 5. -/
def cartFive : Cart := ⟨[(5, 1)], by decide⟩

/-- Helper functions for evaluation: three cart values are recognised, and an order value
is its flag letter (`P` paid, `W` waiting) followed by the total and the item count. -/
def sampleHelpers : Helpers where
  parseCartValue := fun s =>
    if s = "1;1:1" then (1, cartOne)
    else if s = "-1;1:-1" then (-1, cartMinusOne)
    else if s = "1;5:1" then (1, cartFive)
    else (0, Cart.empty)
  composeOrderValue := fun hasPaid price num _ =>
    (if hasPaid then "P" else "W") ++ ";" ++ Itoa price ++ ";" ++ Itoa num
  parseOrderValue := fun s => (decide (s.data.head? = some 'P'), 0, 0, Cart.empty)
  RootUserToken := "0"

/-- A store with one unit of item 1 priced 10, the balances of the root user 0 and of the
users 7 and 8, an unpaid order of user 8 and a paid order of user 9. -/
def sampleData : Data := fun k =>
  if k = "items_stock:1" then some "1"
  else if k = "items_price:1" then some "10"
  else if k = "balance:0" then some "50"
  else if k = "balance:7" then some "100"
  else if k = "balance:8" then some "5"
  else if k = "order:8" then some "W;10;1"
  else if k = "order:9" then some "P;10;1"
  else none

/-- A store whose only key is the stock counter of item 1, at the largest `int`. -/
def fullStockData : Data := fun k =>
  if k = "items_stock:1" then some "9223372036854775807" else none

/-! ## Iteration order of the cart -/

/-- `SubmitOrder` with the visiting orders of its two `range` loops made explicit. Go
leaves the iteration order of a map unspecified: the first loop (lines 83-92) visits the
pairs of the cart in the order `walk1`, the second (lines 98-109) in the order `walk2`,
and `composeOrderValue` receives the map itself. -/
def SubmitOrderWalk (h : Helpers) (data : Data) (args : SubmitOrderArgs)
    (walk1 walk2 : List (Int × Int)) : Int × Data :=
  let orderKey := OrderKeyPrefix ++ args.UserToken
  let parsed := h.parseCartValue args.CartValue
  let num := parsed.1
  let cartDetail := parsed.2
  if stockShort data walk1 then (OutOfStock, data)
  else if (data orderKey).isSome then (OrderOutOfLimit, data)
  else
    let r := deductStock data 0 walk2
    (OK, r.1.put orderKey (h.composeOrderValue false r.2 num cartDetail))

/-! ## The scalar operations of the store -/

/-- The reply of a scalar operation, `Reply{Flag, Value}` in `src/kvstore/test_test.go`. -/
structure Reply where
  Flag : Bool
  Value : String
  deriving DecidableEq

/-- A store in which no key was ever written. -/
def emptyData : Data := fun _ => none

/-- Modelled from the spec: `TinyStore.Get`, whose server-side body is not in the source
tree (only the client stub `Client.Get` and `TestBasic` are). Section 4.1: "Get(key), read
scalar, result (existed, value)"; section 8: a key never written reports not-existing, and
`TestBasic` expects the empty value with it. -/
def TinyStoreGet (data : Data) (key : String) : Reply :=
  match data key with
  | some value => ⟨true, value⟩
  | none => ⟨false, ""⟩

/-- Modelled from the spec: `TinyStore.Put`, whose server-side body is not in the source
tree. Section 4.1: "Put(key, value), overwrite scalar, result (existed-before, new
value)". -/
def TinyStorePut (data : Data) (key value : String) : Reply × Data :=
  (⟨(data key).isSome, value⟩, data.put key value)

/-- Modelled from the spec: `TinyStore.Del`, whose server-side body is not in the source
tree. Section 4.1: "Del(key), remove scalar". -/
def TinyStoreDel (data : Data) (key : String) : Data :=
  fun k1 => if k1 = key then none else data k1

/-! ## A second instance of the helper functions, with an invertible order format

An order value is its flag letter, `;`, and then the total, the item count and the
identifier and count of every item, each integer in decimal and followed by `;`. -/

/-- The text of a list of integers, each followed by `;`. -/
def encodeInts : List Int → List Char
  | [] => []
  | i :: rest => (Itoa i).data ++ ';' :: encodeInts rest

/-- One character of the reader of `encodeInts`: the integers read so far (last first),
whether a minus sign was seen, and the digits read so far. -/
def decodeStep (st : List Int × Bool × Nat) (c : Char) : List Int × Bool × Nat :=
  if c = ';' then ((if st.2.1 = true then -(st.2.2 : Int) else (st.2.2 : Int)) :: st.1, false, 0)
  else if c = '-' then (st.1, true, st.2.2)
  else (st.1, st.2.1, st.2.2 * 10 + (c.toNat - 48))

/-- The integers of a text written by `encodeInts`. -/
def decodeInts (cs : List Char) : List Int :=
  (cs.foldl decodeStep ([], false, 0)).1.reverse

/-- The identifiers and counts of a cart in one list. -/
def flattenItems : List (Int × Int) → List Int
  | [] => []
  | (itemID, itemCnt) :: rest => itemID :: itemCnt :: flattenItems rest

/-- The pairs of a list written by `flattenItems`. -/
def pairItems : List Int → List (Int × Int)
  | itemID :: itemCnt :: rest => (itemID, itemCnt) :: pairItems rest
  | _ => []

/-- The map holding the given pairs, or the empty map when an identifier occurs twice. -/
def cartOfItems (l : List (Int × Int)) : Cart :=
  if hnd : (l.map Prod.fst).Nodup then ⟨l, hnd⟩ else Cart.empty

/-- One unit of item 1 and one unit of item 5. -/
def cartPair : Cart := ⟨[(1, 1), (5, 1)], by decide⟩

/-- Helper functions whose `parseOrderValue` inverts `composeOrderValue`; cart values are
those of `sampleHelpers` and one cart of two items. -/
def codecHelpers : Helpers where
  parseCartValue := fun s =>
    if s = "2;1:1;5:1" then (2, cartPair) else sampleHelpers.parseCartValue s
  composeOrderValue := fun hasPaid price num detail =>
    String.mk ((if hasPaid then 'P' else 'W') :: ';' ::
      encodeInts (price :: num :: flattenItems detail.items))
  parseOrderValue := fun s =>
    match s.data with
    | flag :: ';' :: rest =>
      match decodeInts rest with
      | price :: num :: detail => (decide (flag = 'P'), price, num, cartOfItems (pairItems detail))
      | _ => (decide (flag = 'P'), 0, 0, Cart.empty)
    | _ => (false, 0, 0, Cart.empty)
  RootUserToken := "0"

/-- A store with the stock and price of items 1 and 5, the balances of the root user 0 and
of user 8, and an unpaid order of user 8 for one unit of item 1 at a total of 10, in the
format of `codecHelpers`. -/
def orderBook : Data := fun k =>
  if k = "items_stock:1" then some "3"
  else if k = "items_stock:5" then some "2"
  else if k = "items_price:1" then some "10"
  else if k = "items_price:5" then some "7"
  else if k = "balance:0" then some "50"
  else if k = "balance:8" then some "100"
  else if k = "order:8" then some "W;10;1;1;1;"
  else none

/-! ## Further sample stores and carts -/

/-- The prices of items 1 and 5, the first at the largest `int`; no other key. -/
def dearData : Data := fun k =>
  if k = "items_price:1" then some "9223372036854775807"
  else if k = "items_price:5" then some "1"
  else none

/-- An unpaid order of user 8 and the balance of user 7; the root user has no balance. -/
def noRootData : Data := fun k =>
  if k = "balance:7" then some "100"
  else if k = "order:8" then some "W;10;1"
  else none

/-- An unpaid order of user 8, the balance of user 7, and the balance of the root user 0
at the largest `int`. -/
def richRootData : Data := fun k =>
  if k = "balance:0" then some "9223372036854775807"
  else if k = "balance:7" then some "100"
  else if k = "order:8" then some "W;10;1"
  else none

/-- The cart of `cartPair` with its two pairs in the other order. -/
def cartPairSwapped : Cart := ⟨[(5, 1), (1, 1)], by decide⟩

/-- The body of `SubmitOrder` after `parseCartValue` (lines 80-111), with the parsed
count `num` and the parsed cart `cartDetail` as arguments. -/
def SubmitOrderCart (h : Helpers) (data : Data) (args : SubmitOrderArgs) (num : Int)
    (cartDetail : Cart) : Int × Data :=
  let orderKey := OrderKeyPrefix ++ args.UserToken
  if stockShort data cartDetail.items then (OutOfStock, data)
  else if (data orderKey).isSome then (OrderOutOfLimit, data)
  else
    let r := deductStock data 0 cartDetail.items
    (OK, r.1.put orderKey (h.composeOrderValue false r.2 num cartDetail))

/-! ## Lemmas: decimal text -/

theorem digitChar_isDecDigit (d : Nat) (h : d < 10) :
    isDecDigit (Nat.digitChar d) ∧ (Nat.digitChar d).toNat - 48 = d := by
  interval_cases d <;> decide

theorem decVal_append (a : Nat) (xs ys : List Char) :
    decVal a (xs ++ ys) = decVal (decVal a xs) ys := by
  simp [decVal, List.foldl_append]

theorem toDigitsCore_spec (fuel : Nat) : ∀ (n : Nat) (ds : List Char), n < fuel →
    ∃ pre : List Char, Nat.toDigitsCore 10 fuel n ds = pre ++ ds ∧ pre ≠ [] ∧
      (∀ c ∈ pre, isDecDigit c) ∧ decVal 0 pre = n := by
  induction fuel with
  | zero => intro n ds h; omega
  | succ fuel ih =>
    intro n ds h
    have hd := digitChar_isDecDigit (n % 10) (Nat.mod_lt _ (by decide))
    simp only [Nat.toDigitsCore]
    by_cases h0 : n / 10 = 0
    · refine ⟨[Nat.digitChar (n % 10)], ?_, by simp, ?_, ?_⟩
      · simp [h0]
      · intro c hc
        simp at hc
        subst hc
        exact hd.1
      · simp [decVal, hd.2]
        omega
    · have hlt : n / 10 < fuel := by omega
      obtain ⟨pre, hpre, hne, hdig, hval⟩ := ih (n / 10) (Nat.digitChar (n % 10) :: ds) hlt
      refine ⟨pre ++ [Nat.digitChar (n % 10)], ?_, by simp, ?_, ?_⟩
      · simp [h0, hpre]
      · intro c hc
        rcases List.mem_append.1 hc with hc | hc
        · exact hdig c hc
        · simp at hc
          subst hc
          exact hd.1
      · rw [decVal_append, hval]
        simp [decVal, hd.2]
        omega

theorem repr_spec (n : Nat) :
    (Nat.repr n).data ≠ [] ∧ (∀ c ∈ (Nat.repr n).data, isDecDigit c) ∧
      decVal 0 (Nat.repr n).data = n := by
  obtain ⟨pre, hpre, hne, hdig, hval⟩ := toDigitsCore_spec (n + 1) n [] (Nat.lt_succ_self n)
  have hdata : (Nat.repr n).data = pre := by
    simp [Nat.repr, Nat.toDigits, hpre, List.asString]
  rw [hdata]
  exact ⟨hne, hdig, hval⟩

theorem isDecDigit_ne_sign (c : Char) (h : isDecDigit c) : c ≠ '-' ∧ c ≠ '+' := by
  constructor <;> (intro hc; subst hc; revert h; decide)

theorem Itoa_data (i : Int) :
    (Itoa i).data = if i < 0 then '-' :: (Nat.repr i.natAbs).data else (Nat.repr i.natAbs).data := by
  unfold Itoa
  split <;> simp

theorem decodeInt_Itoa (i : Int) : decodeInt (Itoa i).data = i := by
  obtain ⟨hne, hdig, hval⟩ := repr_spec i.natAbs
  rw [Itoa_data]
  split
  · simp only [decodeInt, hval]
    omega
  · cases hd : (Nat.repr i.natAbs).data with
    | nil => exact absurd hd hne
    | cons c cs =>
      have hc : c ≠ '-' := (isDecDigit_ne_sign c (hdig c (by simp [hd]))).1
      have : decodeInt (c :: cs) = (decVal 0 (c :: cs) : Int) := by
        unfold decodeInt
        split
        · rename_i heq
          cases heq
          exact absurd rfl hc
        · rfl
      rw [this, ← hd, hval]
      omega

theorem Itoa_injective : Function.Injective Itoa := by
  intro a b hab
  have := congrArg (fun s => decodeInt s.data) hab
  simpa [decodeInt_Itoa] using this

theorem decVal_ge (cs : List Char) : ∀ a : Nat, a ≤ decVal a cs := by
  induction cs with
  | nil => intro a; simp [decVal]
  | cons c cs ih =>
    intro a
    have := ih (a * 10 + (c.toNat - 48))
    simp only [decVal, List.foldl_cons] at this ⊢
    omega

theorem parseUintLoop_digits (cs : List Char) : ∀ n : Nat, (∀ c ∈ cs, isDecDigit c) →
    decVal n cs ≤ maxUint64 → parseUintLoop n cs = (decVal n cs, NumError.ok) := by
  induction cs with
  | nil => intro n _ _; simp [parseUintLoop, decVal]
  | cons c cs ih =>
    intro n hdig hle
    have hc : '0' ≤ c ∧ c ≤ '9' := hdig c (by simp)
    have hstep : decVal n (c :: cs) = decVal (n * 10 + (c.toNat - 48)) cs := by
      simp [decVal]
    have hge := decVal_ge cs (n * 10 + (c.toNat - 48))
    rw [hstep] at hle ⊢
    have hmax : maxUint64 = 18446744073709551615 := rfl
    have h1 : ¬ (1844674407370955162 ≤ n) := by omega
    have h2 : ¬ (maxUint64 < n * 10 + (c.toNat - 48)) := by omega
    rw [parseUintLoop]
    simp only [hc, and_self, if_true, h1, h2, if_false]
    exact ih _ (fun c hc => hdig c (by simp [hc])) hle

theorem signedOfUint_range (neg : Bool) (r : Nat × NumError) :
    minInt ≤ (signedOfUint neg r).1 ∧ (signedOfUint neg r).1 ≤ maxInt := by
  unfold signedOfUint minInt maxInt
  split
  · simp
  · split
    · simp
    · split
      · simp
      · rename_i h1 h2 h3
        cases neg
        · simp at h2 ⊢
          omega
        · simp at h3 ⊢
          omega

theorem ParseInt_range (s : List Char) :
    minInt ≤ (ParseInt s).1 ∧ (ParseInt s).1 ≤ maxInt := by
  unfold ParseInt
  split
  · simp [minInt, maxInt]
  · split
    · exact signedOfUint_range _ _
    · split <;> exact signedOfUint_range _ _

theorem Atoi_range (s : String) : minInt ≤ Atoi s ∧ Atoi s ≤ maxInt :=
  ParseInt_range s.data

theorem wrapInt_range (z : Int) : minInt ≤ wrapInt z ∧ wrapInt z ≤ maxInt := by
  unfold wrapInt minInt maxInt
  omega

theorem wrapInt_of_range (z : Int) (h1 : minInt ≤ z) (h2 : z ≤ maxInt) : wrapInt z = z := by
  unfold wrapInt
  unfold minInt at h1
  unfold maxInt at h2
  omega

theorem ParseUint_repr (n : Nat) (h : n ≤ maxUint64) :
    ParseUint (Nat.repr n).data = (n, NumError.ok) := by
  obtain ⟨hne, hdig, hval⟩ := repr_spec n
  cases hd : (Nat.repr n).data with
  | nil => exact absurd hd hne
  | cons c cs =>
    rw [hd] at hdig hval
    simp only [ParseUint]
    have := parseUintLoop_digits (c :: cs) 0 hdig (by rw [hval]; exact h)
    rw [this, hval]

theorem signedOfUint_neg (n : Nat) (h : n ≤ 9223372036854775808) :
    (signedOfUint true (n, NumError.ok)).1 = -(n : Int) := by
  unfold signedOfUint
  rw [if_neg (by simp), if_neg (by simp), if_neg (by simp; omega)]
  simp

theorem signedOfUint_pos (n : Nat) (h : n < 9223372036854775808) :
    (signedOfUint false (n, NumError.ok)).1 = (n : Int) := by
  unfold signedOfUint
  rw [if_neg (by simp), if_neg (by simp; omega), if_neg (by simp)]
  simp

theorem Atoi_Itoa (i : Int) (h1 : minInt ≤ i) (h2 : i ≤ maxInt) : Atoi (Itoa i) = i := by
  unfold minInt at h1
  unfold maxInt at h2
  have hle : i.natAbs ≤ maxUint64 := by unfold maxUint64; omega
  have hU := ParseUint_repr i.natAbs hle
  obtain ⟨hne, hdig, _⟩ := repr_spec i.natAbs
  unfold Atoi
  rw [Itoa_data]
  by_cases hneg : i < 0
  · simp only [hneg, if_true, ParseInt]
    rw [hU, if_neg (by decide), signedOfUint_neg i.natAbs (by omega)]
    omega
  · simp only [hneg, if_false]
    cases hd : (Nat.repr i.natAbs).data with
    | nil => exact absurd hd hne
    | cons c cs =>
      have hc := isDecDigit_ne_sign c (hdig c (by simp [hd]))
      simp only [ParseInt]
      rw [if_neg hc.2, if_neg hc.1, ← hd, hU, signedOfUint_pos i.natAbs (by omega)]
      omega


theorem key_append_inj (p a b : String) (h : p ++ a = p ++ b) : a = b := by
  have h1 := congrArg String.data h
  simp only [String.data_append, List.append_cancel_left_eq] at h1
  exact String.ext h1

theorem stock_ne_price (a b : String) : ItemsStockKeyPrefix ++ a ≠ ItemsPriceKeyPrefix ++ b := by
  intro h
  have h1 := congrArg String.data h
  simp [ItemsStockKeyPrefix, ItemsPriceKeyPrefix, String.data_append] at h1

theorem order_ne_stock (a b : String) : OrderKeyPrefix ++ a ≠ ItemsStockKeyPrefix ++ b := by
  intro h
  have h1 := congrArg String.data h
  simp [ItemsStockKeyPrefix, OrderKeyPrefix, String.data_append] at h1

theorem order_ne_balance (a b : String) : OrderKeyPrefix ++ a ≠ BalanceKeyPrefix ++ b := by
  intro h
  have h1 := congrArg String.data h
  simp [BalanceKeyPrefix, OrderKeyPrefix, String.data_append] at h1

/-! ## Lemmas: the store -/

theorem put_same (data : Data) (k v : String) : data.put k v k = some v := by
  simp [Data.put]

theorem put_other (data : Data) (k v k1 : String) (h : k1 ≠ k) : data.put k v k1 = data k1 := by
  simp [Data.put, h]

theorem stockKey_inj (a b : Int)
    (h : ItemsStockKeyPrefix ++ Itoa a = ItemsStockKeyPrefix ++ Itoa b) : a = b :=
  Itoa_injective (key_append_inj _ _ _ h)

/-! ## Lemmas: wrap-around arithmetic -/

theorem wrapInt_add_left (a b : Int) : wrapInt (wrapInt a + b) = wrapInt (a + b) := by
  unfold wrapInt
  omega

theorem wrapInt_add_right (a b : Int) : wrapInt (a + wrapInt b) = wrapInt (a + b) := by
  unfold wrapInt
  omega

/-! ## Lemmas: the two loops of `SubmitOrder` -/

theorem stockShort_false_iff (data : Data) (l : List (Int × Int)) :
    stockShort data l = false ↔
      ∀ p ∈ l, ∀ v, data (ItemsStockKeyPrefix ++ Itoa p.1) = some v → p.2 ≤ Atoi v := by
  induction l with
  | nil => simp [stockShort]
  | cons p rest ih =>
    obtain ⟨itemID, itemCnt⟩ := p
    simp only [stockShort, List.mem_cons, forall_eq_or_imp]
    cases hd : data (ItemsStockKeyPrefix ++ Itoa itemID) with
    | none => simp [ih]
    | some Value =>
      by_cases hlt : Atoi Value < itemCnt
      · simp [hlt]
      · simp [hlt, ih]
        omega

theorem deductItem_other (data : Data) (itemID itemCnt : Int) (k : String)
    (hk : k ≠ ItemsStockKeyPrefix ++ Itoa itemID) : deductItem data itemID itemCnt k = data k := by
  unfold deductItem
  cases hd : data (ItemsStockKeyPrefix ++ Itoa itemID) with
  | none => rfl
  | some Value => exact put_other _ _ _ _ hk

theorem deductItem_self (data : Data) (itemID itemCnt : Int) :
    deductItem data itemID itemCnt (ItemsStockKeyPrefix ++ Itoa itemID) =
      (data (ItemsStockKeyPrefix ++ Itoa itemID)).map (fun v => Itoa (goSub (Atoi v) itemCnt)) := by
  unfold deductItem
  cases hd : data (ItemsStockKeyPrefix ++ Itoa itemID) with
  | none => simp [hd]
  | some Value => simp [put_same]

theorem deductStock_other (l : List (Int × Int)) : ∀ (data : Data) (price : Int) (k : String),
    (∀ p ∈ l, k ≠ ItemsStockKeyPrefix ++ Itoa p.1) → (deductStock data price l).1 k = data k := by
  induction l with
  | nil => intro data price k _; rfl
  | cons p rest ih =>
    intro data price k hk
    obtain ⟨itemID, itemCnt⟩ := p
    simp only [deductStock]
    rw [ih _ _ k (fun p hp => hk p (by simp [hp]))]
    exact deductItem_other _ _ _ _ (hk (itemID, itemCnt) (by simp))

theorem deductStock_item (l : List (Int × Int)) : ∀ (data : Data) (price : Int),
    (l.map Prod.fst).Nodup → ∀ p ∈ l,
      (deductStock data price l).1 (ItemsStockKeyPrefix ++ Itoa p.1) =
        (data (ItemsStockKeyPrefix ++ Itoa p.1)).map (fun v => Itoa (goSub (Atoi v) p.2)) := by
  induction l with
  | nil => intro data price _ p hp; simp at hp
  | cons q rest ih =>
    intro data price hnd p hp
    obtain ⟨itemID, itemCnt⟩ := q
    simp only [List.map_cons, List.nodup_cons] at hnd
    simp only [deductStock]
    rcases List.mem_cons.1 hp with hp | hp
    · subst hp
      rw [deductStock_other]
      · exact deductItem_self _ _ _
      · intro r hr heq
        have hid : itemID = r.1 := stockKey_inj _ _ heq
        exact hnd.1 (by rw [hid]; exact List.mem_map_of_mem Prod.fst hr)
    · rw [ih _ _ hnd.2 p hp]
      have hne : ItemsStockKeyPrefix ++ Itoa p.1 ≠ ItemsStockKeyPrefix ++ Itoa itemID := by
        intro heq
        have hid : p.1 = itemID := stockKey_inj _ _ heq
        exact hnd.1 (by rw [← hid]; exact List.mem_map_of_mem Prod.fst hp)
      rw [deductItem_other _ _ _ _ hne]

theorem deductStock_price (l : List (Int × Int)) : ∀ (data0 data : Data) (price : Int),
    (∀ s, data (ItemsPriceKeyPrefix ++ s) = data0 (ItemsPriceKeyPrefix ++ s)) →
      (deductStock data (wrapInt price) l).2 = wrapInt (price + priceSum data0 l) := by
  induction l with
  | nil => intro data0 data price _; simp [deductStock, priceSum]
  | cons q rest ih =>
    intro data0 data price hagree
    obtain ⟨itemID, itemCnt⟩ := q
    simp only [deductStock]
    have hstep : ∀ s, deductItem data itemID itemCnt (ItemsPriceKeyPrefix ++ s) =
        data0 (ItemsPriceKeyPrefix ++ s) := by
      intro s
      rw [deductItem_other _ _ _ _ (fun h => stock_ne_price _ _ h.symm)]
      exact hagree s
    have hread : (deductItem data itemID itemCnt).read (ItemsPriceKeyPrefix ++ Itoa itemID) =
        data0.read (ItemsPriceKeyPrefix ++ Itoa itemID) := by
      unfold Data.read
      rw [hstep]
    rw [hread]
    have hacc : goAdd (wrapInt price)
        (goMul itemCnt (Atoi (data0.read (ItemsPriceKeyPrefix ++ Itoa itemID)))) =
        wrapInt (price + itemCnt * Atoi (data0.read (ItemsPriceKeyPrefix ++ Itoa itemID))) := by
      unfold goAdd goMul
      rw [wrapInt_add_left, wrapInt_add_right]
    rw [hacc, ih data0 _ _ hstep]
    simp [priceSum, add_assoc]

/-! ## Lemmas: case analysis of `SubmitOrder` -/

theorem SubmitOrder_short (h : Helpers) (data : Data) (args : SubmitOrderArgs)
    (hs : stockShort data (h.parseCartValue args.CartValue).2.items = true) :
    SubmitOrder h data args = (OutOfStock, data) := by
  simp [SubmitOrder, hs]

theorem SubmitOrder_limit (h : Helpers) (data : Data) (args : SubmitOrderArgs)
    (hs : stockShort data (h.parseCartValue args.CartValue).2.items = false)
    (ho : (data (OrderKeyPrefix ++ args.UserToken)).isSome = true) :
    SubmitOrder h data args = (OrderOutOfLimit, data) := by
  simp [SubmitOrder, hs, ho]

theorem SubmitOrder_ok (h : Helpers) (data : Data) (args : SubmitOrderArgs)
    (hs : stockShort data (h.parseCartValue args.CartValue).2.items = false)
    (ho : data (OrderKeyPrefix ++ args.UserToken) = none) :
    SubmitOrder h data args =
      (OK, (deductStock data 0 (h.parseCartValue args.CartValue).2.items).1.put
        (OrderKeyPrefix ++ args.UserToken)
        (h.composeOrderValue false (deductStock data 0 (h.parseCartValue args.CartValue).2.items).2
          (h.parseCartValue args.CartValue).1 (h.parseCartValue args.CartValue).2)) := by
  simp [SubmitOrder, hs, ho]

theorem SubmitOrder_ok_iff (h : Helpers) (data : Data) (args : SubmitOrderArgs) :
    (SubmitOrder h data args).1 = OK ↔
      stockShort data (h.parseCartValue args.CartValue).2.items = false ∧
        data (OrderKeyPrefix ++ args.UserToken) = none := by
  cases hs : stockShort data (h.parseCartValue args.CartValue).2.items with
  | true => simp [SubmitOrder_short h data args hs, OutOfStock, OK]
  | false =>
    cases ho : data (OrderKeyPrefix ++ args.UserToken) with
    | none => simp [SubmitOrder_ok h data args hs ho]
    | some v =>
      simp [SubmitOrder_limit h data args hs (by simp [ho]), OrderOutOfLimit, OK]

theorem SubmitOrder_rejected_store (h : Helpers) (data : Data) (args : SubmitOrderArgs)
    (hrej : (SubmitOrder h data args).1 ≠ OK) : (SubmitOrder h data args).2 = data := by
  cases hs : stockShort data (h.parseCartValue args.CartValue).2.items with
  | true => simp [SubmitOrder_short h data args hs]
  | false =>
    cases ho : data (OrderKeyPrefix ++ args.UserToken) with
    | none => exact absurd ((SubmitOrder_ok_iff h data args).2 ⟨hs, ho⟩) hrej
    | some v => simp [SubmitOrder_limit h data args hs (by simp [ho])]

/-- C1: when `SubmitOrder` replies with a status other than OK, the status is OutOfStock
or OrderOutOfLimit and the store after the call is the store before the call. -/
theorem SubmitOrder_rejected_unchanged (h : Helpers) (data : Data) (args : SubmitOrderArgs)
    (hrej : (SubmitOrder h data args).1 ≠ OK) :
    ((SubmitOrder h data args).1 = OutOfStock ∨ (SubmitOrder h data args).1 = OrderOutOfLimit) ∧
      (SubmitOrder h data args).2 = data := by
  cases hs : stockShort data (h.parseCartValue args.CartValue).2.items with
  | true => simp [SubmitOrder_short h data args hs]
  | false =>
    cases ho : data (OrderKeyPrefix ++ args.UserToken) with
    | none => exact absurd ((SubmitOrder_ok_iff h data args).2 ⟨hs, ho⟩) hrej
    | some v => simp [SubmitOrder_limit h data args hs (by simp [ho])]

theorem SubmitOrder_rejected_unchanged_witness :
    ((SubmitOrder sampleHelpers sampleData ⟨"2", "8", "1;1:1"⟩).1 = OutOfStock ∨
      (SubmitOrder sampleHelpers sampleData ⟨"2", "8", "1;1:1"⟩).1 = OrderOutOfLimit) ∧
      (SubmitOrder sampleHelpers sampleData ⟨"2", "8", "1;1:1"⟩).2 = sampleData :=
  SubmitOrder_rejected_unchanged sampleHelpers sampleData ⟨"2", "8", "1;1:1"⟩ (by decide)


/-- C2 (as stated, refuted): on the sample store the cart of one unit of item 5 is accepted
although item 5 has no stock counter at all. -/
theorem SubmitOrder_ok_without_stock_counter :
    (SubmitOrder sampleHelpers sampleData ⟨"3", "7", "1;5:1"⟩).1 = OK ∧
      (5, 1) ∈ (sampleHelpers.parseCartValue "1;5:1").2.items ∧
      sampleData (ItemsStockKeyPrefix ++ Itoa 5) = none := by
  decide

/-- C2 (amended): when `SubmitOrder` replies OK, every cart item that had a stock counter
before the call had one whose integer value was at least the requested quantity. -/
theorem SubmitOrder_ok_stock_checked (h : Helpers) (data : Data) (args : SubmitOrderArgs)
    (hok : (SubmitOrder h data args).1 = OK) :
    ∀ p ∈ (h.parseCartValue args.CartValue).2.items, ∀ v,
      data (ItemsStockKeyPrefix ++ Itoa p.1) = some v → p.2 ≤ Atoi v :=
  (stockShort_false_iff data _).1 ((SubmitOrder_ok_iff h data args).1 hok).1

theorem SubmitOrder_ok_stock_checked_witness :
    (SubmitOrder sampleHelpers sampleData ⟨"1", "7", "1;1:1"⟩).1 = OK ∧ (1 : Int) ≤ Atoi "1" :=
  ⟨by decide,
    SubmitOrder_ok_stock_checked sampleHelpers sampleData ⟨"1", "7", "1;1:1"⟩ (by decide)
      (1, 1) (by decide) "1" (by decide)⟩

/-! ## Lemmas: no call removes a key -/

theorem put_isSome (data : Data) (k v k1 : String) (h : (data k1).isSome = true) :
    (data.put k v k1).isSome = true := by
  unfold Data.put
  split
  · rfl
  · exact h

theorem deductItem_isSome (data : Data) (itemID itemCnt : Int) (k : String)
    (h : (data k).isSome = true) : (deductItem data itemID itemCnt k).isSome = true := by
  unfold deductItem
  cases data (ItemsStockKeyPrefix ++ Itoa itemID) with
  | none => exact h
  | some Value => exact put_isSome _ _ _ _ h

theorem deductStock_isSome (l : List (Int × Int)) : ∀ (data : Data) (price : Int) (k : String),
    (data k).isSome = true → ((deductStock data price l).1 k).isSome = true := by
  induction l with
  | nil => intro data price k h; exact h
  | cons p rest ih =>
    intro data price k h
    obtain ⟨itemID, itemCnt⟩ := p
    simp only [deductStock]
    exact ih _ _ k (deductItem_isSome _ _ _ _ h)

theorem SubmitOrder_isSome (h : Helpers) (data : Data) (args : SubmitOrderArgs) (k : String)
    (hk : (data k).isSome = true) : ((SubmitOrder h data args).2 k).isSome = true := by
  unfold SubmitOrder
  simp only
  split
  · exact hk
  · split
    · exact hk
    · exact put_isSome _ _ _ _ (deductStock_isSome _ _ _ _ hk)

theorem payCredit_isSome (h : Helpers) (data : Data) (args : PayOrderArgs) (price num : Int)
    (detail : Cart) (k : String) (hk : (data k).isSome = true) :
    (payCredit h data args price num detail k).isSome = true := by
  unfold payCredit
  apply put_isSome
  cases data (BalanceKeyPrefix ++ h.RootUserToken) with
  | none => exact hk
  | some value => exact put_isSome _ _ _ _ hk

theorem PayOrder_isSome (h : Helpers) (data : Data) (args : PayOrderArgs) (k : String)
    (hk : (data k).isSome = true) : ((PayOrder h data args).2 k).isSome = true := by
  unfold PayOrder
  simp only
  split
  · exact hk
  · split
    · split
      · exact hk
      · exact payCredit_isSome _ _ _ _ _ _ _ (put_isSome _ _ _ _ hk)
    · exact payCredit_isSome _ _ _ _ _ _ _ hk

theorem runCalls_isSome (h : Helpers) (calls : List Call) : ∀ (data : Data) (k : String),
    (data k).isSome = true → ((runCalls h data calls) k).isSome = true := by
  induction calls with
  | nil => intro data k hk; exact hk
  | cons c rest ih =>
    intro data k hk
    simp only [runCalls]
    apply ih
    cases c with
    | submit a => exact SubmitOrder_isSome h data a k hk
    | pay a => exact PayOrder_isSome h data a k hk

/-- C3: one order per user. In a store where the order key of `user` exists, `SubmitOrder`
for that user does not reply OK, leaves the order value as it was, and replies
OrderOutOfLimit when no cart item is short of stock. Consequently, once a `SubmitOrder`
of `user` has replied OK, a `SubmitOrder` of the same user with any cart is rejected
after any further sequence of `SubmitOrder` and `PayOrder` calls. -/
theorem SubmitOrder_one_order_per_user (h : Helpers) (user : String) :
    (∀ (data : Data) (args : SubmitOrderArgs) (v : String),
      args.UserToken = user → data (OrderKeyPrefix ++ user) = some v →
        (SubmitOrder h data args).1 ≠ OK ∧
        (SubmitOrder h data args).2 (OrderKeyPrefix ++ user) = some v ∧
        (stockShort data (h.parseCartValue args.CartValue).2.items = false →
          (SubmitOrder h data args).1 = OrderOutOfLimit)) ∧
    (∀ (data : Data) (args : SubmitOrderArgs),
      args.UserToken = user → (SubmitOrder h data args).1 = OK →
        ∀ (later : List Call) (again : SubmitOrderArgs), again.UserToken = user →
          (SubmitOrder h (runCalls h (SubmitOrder h data args).2 later) again).1 ≠ OK) := by
  have key : ∀ (data : Data) (args : SubmitOrderArgs), args.UserToken = user →
      (data (OrderKeyPrefix ++ user)).isSome = true → (SubmitOrder h data args).1 ≠ OK := by
    intro data args hu hsome hok
    have hnone := ((SubmitOrder_ok_iff h data args).1 hok).2
    rw [hu] at hnone
    simp [hnone] at hsome
  constructor
  · intro data args v hu hv
    have hrej := key data args hu (by simp [hv])
    refine ⟨hrej, ?_, ?_⟩
    · rw [(SubmitOrder_rejected_store h data args hrej)]
      exact hv
    · intro hs
      rw [SubmitOrder_limit h data args hs (by rw [hu]; simp [hv])]
  · intro data args hu hok later again hu2
    apply key _ again hu2
    apply runCalls_isSome
    have hboth := (SubmitOrder_ok_iff h data args).1 hok
    rw [SubmitOrder_ok h data args hboth.1 hboth.2, hu]
    simp [put_same]

theorem SubmitOrder_one_order_per_user_witness :
    ((SubmitOrder sampleHelpers sampleData ⟨"2", "8", "1;1:1"⟩).1 ≠ OK ∧
      (SubmitOrder sampleHelpers sampleData ⟨"2", "8", "1;1:1"⟩).2 (OrderKeyPrefix ++ "8") =
        some "W;10;1" ∧
      (SubmitOrder sampleHelpers sampleData ⟨"2", "8", "1;1:1"⟩).1 = OrderOutOfLimit) ∧
    (SubmitOrder sampleHelpers
      (runCalls sampleHelpers (SubmitOrder sampleHelpers sampleData ⟨"1", "7", "1;1:1"⟩).2
        [Call.pay ⟨"7", "7", 10⟩, Call.submit ⟨"3", "8", "1;5:1"⟩])
      ⟨"4", "7", "1;5:1"⟩).1 ≠ OK :=
  ⟨by
      obtain ⟨h1, h2, h3⟩ := (SubmitOrder_one_order_per_user sampleHelpers "8").1 sampleData
        ⟨"2", "8", "1;1:1"⟩ "W;10;1" rfl (by decide)
      exact ⟨h1, h2, h3 (by decide)⟩,
    (SubmitOrder_one_order_per_user sampleHelpers "7").2 sampleData ⟨"1", "7", "1;1:1"⟩
      rfl (by decide) [Call.pay ⟨"7", "7", 10⟩, Call.submit ⟨"3", "8", "1;5:1"⟩]
      ⟨"4", "7", "1;5:1"⟩ rfl⟩

theorem NonNegDecimal_Itoa (n : Int) (h : 0 ≤ n) : NonNegDecimal (Itoa n) := by
  obtain ⟨hne, hdig, _⟩ := repr_spec n.natAbs
  unfold NonNegDecimal
  rw [Itoa_data, if_neg (by omega)]
  exact ⟨hne, hdig⟩

theorem goSub_exact (a q : Int) (h0 : 0 ≤ q) (h1 : q ≤ a) (h2 : a ≤ maxInt) :
    goSub a q = a - q := by
  unfold goSub
  apply wrapInt_of_range
  · unfold minInt; omega
  · omega

theorem SubmitOrder_stock_nonneg (h : Helpers) (data : Data) (args : SubmitOrderArgs)
    (hinit : StockNonNeg data)
    (hq : ∀ p ∈ (h.parseCartValue args.CartValue).2.items, 0 ≤ p.2) :
    StockNonNeg (SubmitOrder h data args).2 := by
  by_cases hok : (SubmitOrder h data args).1 = OK
  · have hboth := (SubmitOrder_ok_iff h data args).1 hok
    rw [SubmitOrder_ok h data args hboth.1 hboth.2]
    intro s v hv
    simp only at hv
    rw [put_other _ _ _ _ (fun e => order_ne_stock _ _ e.symm)] at hv
    by_cases hmem : ∃ p ∈ (h.parseCartValue args.CartValue).2.items,
        ItemsStockKeyPrefix ++ s = ItemsStockKeyPrefix ++ Itoa p.1
    · obtain ⟨p, hp, hkey⟩ := hmem
      rw [hkey, deductStock_item _ _ _ (h.parseCartValue args.CartValue).2.nodup p hp] at hv
      cases hd : data (ItemsStockKeyPrefix ++ Itoa p.1) with
      | none => simp [hd] at hv
      | some v0 =>
        simp only [hd, Option.map_some', Option.some.injEq] at hv
        have hle := (stockShort_false_iff data _).1 hboth.1 p hp v0 hd
        rw [← hv, goSub_exact _ _ (hq p hp) hle (Atoi_range v0).2]
        exact NonNegDecimal_Itoa _ (by omega)
    · rw [deductStock_other _ _ _ _ (fun p hp e => hmem ⟨p, hp, e⟩)] at hv
      exact hinit s v hv
  · rw [SubmitOrder_rejected_store h data args hok]
    exact hinit

theorem submitAll_stock_nonneg (h : Helpers) (calls : List SubmitOrderArgs) : ∀ (data : Data),
    StockNonNeg data →
    (∀ a ∈ calls, ∀ p ∈ (h.parseCartValue a.CartValue).2.items, 0 ≤ p.2) →
    StockNonNeg (submitAll h data calls) := by
  induction calls with
  | nil => intro data hinit _; exact hinit
  | cons a rest ih =>
    intro data hinit hq
    simp only [submitAll]
    exact ih _ (SubmitOrder_stock_nonneg h data a hinit (hq a (by simp)))
      (fun b hb => hq b (by simp [hb]))

/-- C4 (as stated, refuted): with the stock counter of item 1 at the largest `int`, a cart
of minus one unit makes the 64-bit subtraction wrap around, and the counter becomes the
smallest `int`. -/
theorem SubmitOrder_stock_wraps_negative :
    StockNonNeg fullStockData ∧
      submitAll sampleHelpers fullStockData [⟨"1", "7", "-1;1:-1"⟩] "items_stock:1" =
        some "-9223372036854775808" ∧
      ¬ StockNonNeg (submitAll sampleHelpers fullStockData [⟨"1", "7", "-1;1:-1"⟩]) := by
  have hafter : submitAll sampleHelpers fullStockData [⟨"1", "7", "-1;1:-1"⟩] "items_stock:1" =
      some "-9223372036854775808" := by decide
  refine ⟨?_, hafter, ?_⟩
  · intro s v hv
    unfold fullStockData at hv
    split at hv
    · cases hv
      decide
    · cases hv
  · intro hn
    exact absurd (hn "1" _ hafter) (by decide)

/-- C4 (amended): if every `items_stock:` counter holds a non-negative decimal integer,
then after each call of any sequence of `SubmitOrder` calls whose carts request no
negative quantity, every `items_stock:` counter still holds a non-negative decimal
integer. -/
theorem submitAll_stock_never_negative (h : Helpers) (data : Data)
    (calls : List SubmitOrderArgs) (hinit : StockNonNeg data)
    (hq : ∀ a ∈ calls, ∀ p ∈ (h.parseCartValue a.CartValue).2.items, 0 ≤ p.2) :
    ∀ n : Nat, StockNonNeg (submitAll h data (calls.take n)) := by
  intro n
  exact submitAll_stock_nonneg h _ data hinit
    (fun a ha => hq a (List.mem_of_mem_take ha))


theorem sampleData_stockNonNeg : StockNonNeg sampleData := by
  intro s v hv
  unfold sampleData at hv
  have hord : ∀ t : String, ItemsStockKeyPrefix ++ s ≠ OrderKeyPrefix ++ t :=
    fun t e => order_ne_stock _ _ e.symm
  split at hv
  · cases hv; decide
  · split at hv
    · cases hv; decide
    · split at hv
      · cases hv; decide
      · split at hv
        · cases hv; decide
        · split at hv
          · cases hv; decide
          · split at hv
            · rename_i e
              exact absurd e (hord "8")
            · split at hv
              · rename_i e
                exact absurd e (hord "9")
              · cases hv

theorem submitAll_stock_never_negative_witness :
    StockNonNeg (submitAll sampleHelpers sampleData
      (List.take 1 [⟨"1", "7", "1;1:1"⟩, ⟨"2", "8", "1;1:1"⟩])) :=
  submitAll_stock_never_negative sampleHelpers sampleData
    [⟨"1", "7", "1;1:1"⟩, ⟨"2", "8", "1;1:1"⟩] sampleData_stockNonNeg (by decide) 1

/-- C6 (amended): when `SubmitOrder` replies OK, the value stored under the order key of
the user is `composeOrderValue(false, total, num, detail)` with `(num, detail)` the parsed
cart value and `total` the sum over the cart items of quantity times the integer price
read from `items_price:` (an absent or non-numeric price reading as 0), computed as a
64-bit Go `int`: `total` is the exact sum whenever the exact sum fits in an `int`, and the
sum reduced to 64 bits otherwise. -/
theorem SubmitOrder_ok_order_value (h : Helpers) (data : Data) (args : SubmitOrderArgs)
    (hok : (SubmitOrder h data args).1 = OK) :
    (SubmitOrder h data args).2 (OrderKeyPrefix ++ args.UserToken) =
        some (h.composeOrderValue false
          (wrapInt (priceSum data (h.parseCartValue args.CartValue).2.items))
          (h.parseCartValue args.CartValue).1 (h.parseCartValue args.CartValue).2) ∧
      (minInt ≤ priceSum data (h.parseCartValue args.CartValue).2.items ∧
          priceSum data (h.parseCartValue args.CartValue).2.items ≤ maxInt →
        (SubmitOrder h data args).2 (OrderKeyPrefix ++ args.UserToken) =
          some (h.composeOrderValue false
            (priceSum data (h.parseCartValue args.CartValue).2.items)
            (h.parseCartValue args.CartValue).1 (h.parseCartValue args.CartValue).2)) := by
  have hboth := (SubmitOrder_ok_iff h data args).1 hok
  have hprice := deductStock_price (h.parseCartValue args.CartValue).2.items data data 0
    (fun _ => rfl)
  have h0 : wrapInt 0 = 0 := by decide
  rw [h0, zero_add] at hprice
  have hmain : (SubmitOrder h data args).2 (OrderKeyPrefix ++ args.UserToken) =
      some (h.composeOrderValue false
        (wrapInt (priceSum data (h.parseCartValue args.CartValue).2.items))
        (h.parseCartValue args.CartValue).1 (h.parseCartValue args.CartValue).2) := by
    rw [SubmitOrder_ok h data args hboth.1 hboth.2]
    simp only
    rw [put_same, hprice]
  refine ⟨hmain, ?_⟩
  intro hr
  rw [hmain, wrapInt_of_range _ hr.1 hr.2]

theorem SubmitOrder_ok_order_value_witness :
    (SubmitOrder sampleHelpers sampleData ⟨"1", "7", "1;1:1"⟩).1 = OK ∧
      (SubmitOrder sampleHelpers sampleData ⟨"1", "7", "1;1:1"⟩).2 (OrderKeyPrefix ++ "7") =
        some (sampleHelpers.composeOrderValue false
          (priceSum sampleData (sampleHelpers.parseCartValue "1;1:1").2.items)
          (sampleHelpers.parseCartValue "1;1:1").1 (sampleHelpers.parseCartValue "1;1:1").2) :=
  ⟨by decide,
    (SubmitOrder_ok_order_value sampleHelpers sampleData ⟨"1", "7", "1;1:1"⟩ (by decide)).2
      ⟨by decide, by decide⟩⟩


theorem order_key_ne (a b : String) (h : a ≠ b) : OrderKeyPrefix ++ a ≠ OrderKeyPrefix ++ b :=
  fun e => h (key_append_inj _ _ _ e)

theorem two_buyers_serial (h : Helpers) (data : Data) (a b : SubmitOrderArgs)
    (hab : a.UserToken ≠ b.UserToken)
    (ha : (h.parseCartValue a.CartValue).2.items = [(1, 1)])
    (hb : (h.parseCartValue b.CartValue).2.items = [(1, 1)])
    (hstock : data (ItemsStockKeyPrefix ++ Itoa 1) = some "1")
    (hoa : data (OrderKeyPrefix ++ a.UserToken) = none)
    (hob : data (OrderKeyPrefix ++ b.UserToken) = none) :
    FirstBuyerWins h data a b := by
  unfold FirstBuyerWins
  have hsa : stockShort data (h.parseCartValue a.CartValue).2.items = false := by
    rw [ha]
    simp only [stockShort, hstock]
    decide
  have hok : (SubmitOrder h data a).1 = OK := (SubmitOrder_ok_iff h data a).2 ⟨hsa, hoa⟩
  have hst1 : (SubmitOrder h data a).2 (ItemsStockKeyPrefix ++ Itoa 1) = some "0" := by
    rw [SubmitOrder_ok h data a hsa hoa]
    simp only
    rw [put_other _ _ _ _ (fun e => order_ne_stock _ _ e.symm), ha]
    simp only [deductStock, deductItem_self, hstock, Option.map_some']
    decide
  have hsb : stockShort (SubmitOrder h data a).2 (h.parseCartValue b.CartValue).2.items = true := by
    rw [hb]
    simp only [stockShort, hst1]
    decide
  have hrej := SubmitOrder_short h (SubmitOrder h data a).2 b hsb
  rw [hrej]
  refine ⟨hok, rfl, hst1, ?_, ?_⟩
  · rw [SubmitOrder_ok h data a hsa hoa]
    simp [put_same]
  · rw [SubmitOrder_ok h data a hsa hoa]
    simp only
    rw [put_other _ _ _ _ (order_key_ne _ _ (Ne.symm hab)),
      deductStock_other _ _ _ _ (fun p _ e => order_ne_stock _ _ e)]
    exact hob

/-- C7: two-buyer scenario. From a store where the stock counter of item 1 is `"1"` and
neither of two distinct users has an order key, two `SubmitOrder` calls with carts of one
unit of item 1, run one after the other in either order, give OK to the first call and
OutOfStock to the second, leave the stock counter at `"0"`, and leave an order key for the
first user only. -/
theorem two_buyers_one_unit (h : Helpers) (data : Data) (a b : SubmitOrderArgs)
    (hab : a.UserToken ≠ b.UserToken)
    (ha : (h.parseCartValue a.CartValue).2.items = [(1, 1)])
    (hb : (h.parseCartValue b.CartValue).2.items = [(1, 1)])
    (hstock : data (ItemsStockKeyPrefix ++ Itoa 1) = some "1")
    (hoa : data (OrderKeyPrefix ++ a.UserToken) = none)
    (hob : data (OrderKeyPrefix ++ b.UserToken) = none) :
    FirstBuyerWins h data a b ∧ FirstBuyerWins h data b a :=
  ⟨two_buyers_serial h data a b hab ha hb hstock hoa hob,
    two_buyers_serial h data b a (Ne.symm hab) hb ha hstock hob hoa⟩

theorem two_buyers_one_unit_witness :
    FirstBuyerWins sampleHelpers sampleData ⟨"1", "7", "1;1:1"⟩ ⟨"2", "6", "1;1:1"⟩ ∧
      FirstBuyerWins sampleHelpers sampleData ⟨"2", "6", "1;1:1"⟩ ⟨"1", "7", "1;1:1"⟩ :=
  two_buyers_one_unit sampleHelpers sampleData ⟨"1", "7", "1;1:1"⟩ ⟨"2", "6", "1;1:1"⟩
    (by decide) (by decide) (by decide) (by decide) (by decide) (by decide)


theorem balance_key_ne (a b : String) (h : a ≠ b) :
    BalanceKeyPrefix ++ a ≠ BalanceKeyPrefix ++ b :=
  fun e => h (key_append_inj _ _ _ e)

/-! ## Lemmas: case analysis of `PayOrder` -/

theorem PayOrder_paid (h : Helpers) (data : Data) (args : PayOrderArgs)
    (hp : (h.parseOrderValue (data.read (OrderKeyPrefix ++ args.OrderIDStr))).1 = true) :
    PayOrder h data args = (OrderPaid, data) := by
  simp [PayOrder, hp]

theorem PayOrder_short (h : Helpers) (data : Data) (args : PayOrderArgs) (v : String)
    (hp : (h.parseOrderValue (data.read (OrderKeyPrefix ++ args.OrderIDStr))).1 = false)
    (hb : data (BalanceKeyPrefix ++ args.UserToken) = some v) (hlt : Atoi v < args.Delta) :
    PayOrder h data args = (BalanceInsufficient, data) := by
  simp [PayOrder, hp, hb, hlt]

theorem PayOrder_debit (h : Helpers) (data : Data) (args : PayOrderArgs) (v : String)
    (hp : (h.parseOrderValue (data.read (OrderKeyPrefix ++ args.OrderIDStr))).1 = false)
    (hb : data (BalanceKeyPrefix ++ args.UserToken) = some v) (hge : ¬ Atoi v < args.Delta) :
    PayOrder h data args =
      (OK, payCredit h
        (data.put (BalanceKeyPrefix ++ args.UserToken) (Itoa (goSub (Atoi v) args.Delta))) args
        (h.parseOrderValue (data.read (OrderKeyPrefix ++ args.OrderIDStr))).2.1
        (h.parseOrderValue (data.read (OrderKeyPrefix ++ args.OrderIDStr))).2.2.1
        (h.parseOrderValue (data.read (OrderKeyPrefix ++ args.OrderIDStr))).2.2.2) := by
  simp [PayOrder, hp, hb, hge]

theorem PayOrder_no_account (h : Helpers) (data : Data) (args : PayOrderArgs)
    (hp : (h.parseOrderValue (data.read (OrderKeyPrefix ++ args.OrderIDStr))).1 = false)
    (hb : data (BalanceKeyPrefix ++ args.UserToken) = none) :
    PayOrder h data args =
      (OK, payCredit h data args
        (h.parseOrderValue (data.read (OrderKeyPrefix ++ args.OrderIDStr))).2.1
        (h.parseOrderValue (data.read (OrderKeyPrefix ++ args.OrderIDStr))).2.2.1
        (h.parseOrderValue (data.read (OrderKeyPrefix ++ args.OrderIDStr))).2.2.2) := by
  simp [PayOrder, hp, hb]

theorem payCredit_order (h : Helpers) (data : Data) (args : PayOrderArgs) (price num : Int)
    (detail : Cart) :
    payCredit h data args price num detail (OrderKeyPrefix ++ args.OrderIDStr) =
      some (h.composeOrderValue true price num detail) := by
  unfold payCredit
  exact put_same _ _ _

theorem payCredit_root (h : Helpers) (data : Data) (args : PayOrderArgs) (price num : Int)
    (detail : Cart) (vr : String) (hr : data (BalanceKeyPrefix ++ h.RootUserToken) = some vr) :
    payCredit h data args price num detail (BalanceKeyPrefix ++ h.RootUserToken) =
      some (Itoa (goAdd (Atoi vr) args.Delta)) := by
  unfold payCredit
  simp only [hr]
  rw [put_other _ _ _ _ (fun e => order_ne_balance _ _ e.symm), put_same]

theorem payCredit_other (h : Helpers) (data : Data) (args : PayOrderArgs) (price num : Int)
    (detail : Cart) (k : String) (h1 : k ≠ BalanceKeyPrefix ++ h.RootUserToken)
    (h2 : k ≠ OrderKeyPrefix ++ args.OrderIDStr) :
    payCredit h data args price num detail k = data k := by
  unfold payCredit
  rw [put_other _ _ _ _ h2]
  cases data (BalanceKeyPrefix ++ h.RootUserToken) with
  | none => rfl
  | some value => exact put_other _ _ _ _ h1

/-- C8: when the order value under the order key parses as already paid, `PayOrder`
replies OrderPaid for every payer and amount and the store after the call is the store
before the call. -/
theorem PayOrder_already_paid (h : Helpers) (data : Data) (args : PayOrderArgs)
    (hp : (h.parseOrderValue (data.read (OrderKeyPrefix ++ args.OrderIDStr))).1 = true) :
    (PayOrder h data args).1 = OrderPaid ∧ (PayOrder h data args).2 = data := by
  rw [PayOrder_paid h data args hp]
  exact ⟨rfl, rfl⟩

theorem PayOrder_already_paid_witness :
    (PayOrder sampleHelpers sampleData ⟨"9", "7", 10⟩).1 = OrderPaid ∧
      (PayOrder sampleHelpers sampleData ⟨"9", "7", 10⟩).2 = sampleData :=
  PayOrder_already_paid sampleHelpers sampleData ⟨"9", "7", 10⟩ (by decide)

/-- C9: when the order is not marked paid and the balance of the payer is an integer
smaller than the amount, `PayOrder` replies BalanceInsufficient and the store after the
call is the store before the call. -/
theorem PayOrder_balance_insufficient (h : Helpers) (data : Data) (args : PayOrderArgs)
    (v : String)
    (hp : (h.parseOrderValue (data.read (OrderKeyPrefix ++ args.OrderIDStr))).1 = false)
    (hb : data (BalanceKeyPrefix ++ args.UserToken) = some v) (hlt : Atoi v < args.Delta) :
    (PayOrder h data args).1 = BalanceInsufficient ∧ (PayOrder h data args).2 = data := by
  rw [PayOrder_short h data args v hp hb hlt]
  exact ⟨rfl, rfl⟩

theorem PayOrder_balance_insufficient_witness :
    (PayOrder sampleHelpers sampleData ⟨"8", "8", 10⟩).1 = BalanceInsufficient ∧
      (PayOrder sampleHelpers sampleData ⟨"8", "8", 10⟩).2 = sampleData :=
  PayOrder_balance_insufficient sampleHelpers sampleData ⟨"8", "8", 10⟩ "5"
    (by decide) (by decide) (by decide)

theorem PayOrder_ok_not_paid (h : Helpers) (data : Data) (args : PayOrderArgs)
    (hok : (PayOrder h data args).1 = OK) :
    (h.parseOrderValue (data.read (OrderKeyPrefix ++ args.OrderIDStr))).1 = false := by
  cases hp : (h.parseOrderValue (data.read (OrderKeyPrefix ++ args.OrderIDStr))).1 with
  | false => rfl
  | true =>
    rw [PayOrder_paid h data args hp] at hok
    exact absurd hok (show OrderPaid ≠ OK by decide)

/-! ## Lemmas: the invertible order format -/

theorem isDecDigit_ne_sep (c : Char) (h : isDecDigit c) : c ≠ ';' ∧ c ≠ '-' := by
  constructor <;> (intro hc; subst hc; revert h; decide)

theorem foldl_decodeStep_digits (ds : List Char) : ∀ (acc : List Int) (neg : Bool) (n : Nat),
    (∀ c ∈ ds, isDecDigit c) →
      ds.foldl decodeStep (acc, neg, n) = (acc, neg, decVal n ds) := by
  induction ds with
  | nil => intro acc neg n _; rfl
  | cons c cs ih =>
    intro acc neg n hdig
    have hc := isDecDigit_ne_sep c (hdig c (by simp))
    simp only [List.foldl_cons, decodeStep, if_neg hc.1, if_neg hc.2]
    rw [ih _ _ _ (fun d hd => hdig d (by simp [hd]))]
    simp [decVal]

theorem foldl_decodeStep_Itoa (i : Int) (acc : List Int) (rest : List Char) :
    ((Itoa i).data ++ ';' :: rest).foldl decodeStep (acc, false, 0) =
      rest.foldl decodeStep (i :: acc, false, 0) := by
  obtain ⟨_, hdig, hval⟩ := repr_spec i.natAbs
  rw [Itoa_data, List.foldl_append]
  by_cases hneg : i < 0
  · simp only [hneg, if_true, List.foldl_cons]
    have h1 : decodeStep (acc, false, 0) '-' = (acc, true, 0) := by
      simp [decodeStep]
    rw [h1, foldl_decodeStep_digits _ _ _ _ hdig, hval]
    have hi : -(i.natAbs : Int) = i := by omega
    have h2 : decodeStep (acc, true, i.natAbs) ';' = (i :: acc, false, 0) := by
      unfold decodeStep
      rw [if_pos rfl, if_pos rfl, hi]
    rw [h2]
  · simp only [hneg, if_false, List.foldl_cons]
    rw [foldl_decodeStep_digits _ _ _ _ hdig, hval]
    have hi : (i.natAbs : Int) = i := by omega
    have h2 : decodeStep (acc, false, i.natAbs) ';' = (i :: acc, false, 0) := by
      unfold decodeStep
      rw [if_pos rfl, if_neg (by simp), hi]
    rw [h2]

theorem foldl_decodeStep_encodeInts (l : List Int) : ∀ acc : List Int,
    (encodeInts l).foldl decodeStep (acc, false, 0) = (l.reverse ++ acc, false, 0) := by
  induction l with
  | nil => intro acc; rfl
  | cons i rest ih =>
    intro acc
    simp only [encodeInts]
    rw [foldl_decodeStep_Itoa, ih]
    simp

theorem decodeInts_encodeInts (l : List Int) : decodeInts (encodeInts l) = l := by
  unfold decodeInts
  rw [foldl_decodeStep_encodeInts]
  simp

theorem pairItems_flattenItems (l : List (Int × Int)) : pairItems (flattenItems l) = l := by
  induction l with
  | nil => rfl
  | cons p rest ih =>
    obtain ⟨a, b⟩ := p
    simp [flattenItems, pairItems, ih]

theorem cartOfItems_items (c : Cart) : cartOfItems c.items = c := by
  unfold cartOfItems
  rw [dif_pos c.nodup]

theorem codecHelpers_inverts (hasPaid : Bool) (price num : Int) (detail : Cart) :
    codecHelpers.parseOrderValue (codecHelpers.composeOrderValue hasPaid price num detail) =
      (hasPaid, price, num, detail) := by
  simp only [codecHelpers]
  rw [decodeInts_encodeInts]
  simp only [pairItems_flattenItems, cartOfItems_items]
  cases hasPaid <;> simp

/-! ## Lemmas: existing orders -/

theorem SubmitOrder_keeps_order (h : Helpers) (data : Data) (args : SubmitOrderArgs)
    (orderID ov : String) (hex : data (OrderKeyPrefix ++ orderID) = some ov) :
    (SubmitOrder h data args).2 (OrderKeyPrefix ++ orderID) = some ov := by
  by_cases hok : (SubmitOrder h data args).1 = OK
  · have hboth := (SubmitOrder_ok_iff h data args).1 hok
    have hne : OrderKeyPrefix ++ orderID ≠ OrderKeyPrefix ++ args.UserToken := by
      intro e
      rw [e, hboth.2] at hex
      cases hex
    rw [SubmitOrder_ok h data args hboth.1 hboth.2]
    simp only
    rw [put_other _ _ _ _ hne, deductStock_other _ _ _ _ (fun p _ e => order_ne_stock _ _ e)]
    exact hex
  · rw [SubmitOrder_rejected_store h data args hok]
    exact hex

theorem PayOrder_other_order (h : Helpers) (data : Data) (args : PayOrderArgs) (orderID : String)
    (hne : orderID ≠ args.OrderIDStr) :
    (PayOrder h data args).2 (OrderKeyPrefix ++ orderID) = data (OrderKeyPrefix ++ orderID) := by
  have hk1 : OrderKeyPrefix ++ orderID ≠ BalanceKeyPrefix ++ h.RootUserToken := order_ne_balance _ _
  have hk2 : OrderKeyPrefix ++ orderID ≠ OrderKeyPrefix ++ args.OrderIDStr := order_key_ne _ _ hne
  have hk3 : OrderKeyPrefix ++ orderID ≠ BalanceKeyPrefix ++ args.UserToken := order_ne_balance _ _
  unfold PayOrder
  simp only
  split
  · rfl
  · split
    · split
      · rfl
      · simp only
        rw [payCredit_other _ _ _ _ _ _ _ hk1 hk2, put_other _ _ _ _ hk3]
    · simp only
      rw [payCredit_other _ _ _ _ _ _ _ hk1 hk2]

theorem PayOrder_same_order (h : Helpers) (data : Data) (args : PayOrderArgs) :
    (PayOrder h data args).2 = data ∨
      ((h.parseOrderValue (data.read (OrderKeyPrefix ++ args.OrderIDStr))).1 = false ∧
        (PayOrder h data args).2 (OrderKeyPrefix ++ args.OrderIDStr) =
          some (h.composeOrderValue true
            (h.parseOrderValue (data.read (OrderKeyPrefix ++ args.OrderIDStr))).2.1
            (h.parseOrderValue (data.read (OrderKeyPrefix ++ args.OrderIDStr))).2.2.1
            (h.parseOrderValue (data.read (OrderKeyPrefix ++ args.OrderIDStr))).2.2.2)) := by
  cases hp : (h.parseOrderValue (data.read (OrderKeyPrefix ++ args.OrderIDStr))).1 with
  | true => left; rw [PayOrder_paid h data args hp]
  | false =>
    cases hb : data (BalanceKeyPrefix ++ args.UserToken) with
    | none =>
      right
      rw [PayOrder_no_account h data args hp hb]
      exact ⟨rfl, payCredit_order _ _ _ _ _ _⟩
    | some v =>
      by_cases hlt : Atoi v < args.Delta
      · left; rw [PayOrder_short h data args v hp hb hlt]
      · right
        rw [PayOrder_debit h data args v hp hb hlt]
        exact ⟨rfl, payCredit_order _ _ _ _ _ _⟩

/-- C12: order immutability. Assuming `parseOrderValue` inverts `composeOrderValue`, after
any single `SubmitOrder` or `PayOrder` call every order key that existed before the call
still exists and its value parses to the same total, item count and per-item detail. The
value is either the one before the call, or the order was unpaid before and is paid
after; an order that was paid before the call is paid after it. -/
theorem existing_order_immutable (h : Helpers)
    (hinv : ∀ hasPaid price num detail,
      h.parseOrderValue (h.composeOrderValue hasPaid price num detail) =
        (hasPaid, price, num, detail))
    (data : Data) (c : Call) (orderID ov : String)
    (hex : data (OrderKeyPrefix ++ orderID) = some ov) :
    ∃ ov1, (c.run h data).2 (OrderKeyPrefix ++ orderID) = some ov1 ∧
      (h.parseOrderValue ov1).2 = (h.parseOrderValue ov).2 ∧
      (ov1 = ov ∨ ((h.parseOrderValue ov).1 = false ∧ (h.parseOrderValue ov1).1 = true)) ∧
      ((h.parseOrderValue ov).1 = true → (h.parseOrderValue ov1).1 = true) := by
  have hsame : ∃ ov1, data (OrderKeyPrefix ++ orderID) = some ov1 ∧
      (h.parseOrderValue ov1).2 = (h.parseOrderValue ov).2 ∧
      (ov1 = ov ∨ ((h.parseOrderValue ov).1 = false ∧ (h.parseOrderValue ov1).1 = true)) ∧
      ((h.parseOrderValue ov).1 = true → (h.parseOrderValue ov1).1 = true) :=
    ⟨ov, hex, rfl, Or.inl rfl, fun hp => hp⟩
  cases c with
  | submit args =>
    simp only [Call.run]
    rw [SubmitOrder_keeps_order h data args orderID ov hex]
    rw [hex] at hsame
    exact hsame
  | pay args =>
    simp only [Call.run]
    by_cases hid : orderID = args.OrderIDStr
    · subst hid
      have hread : data.read (OrderKeyPrefix ++ args.OrderIDStr) = ov := by
        simp [Data.read, hex]
      rcases PayOrder_same_order h data args with hun | ⟨hp, hnew⟩
      · rw [hun]
        exact hsame
      · rw [hread] at hp hnew
        refine ⟨_, hnew, ?_, Or.inr ⟨hp, ?_⟩, fun _ => ?_⟩
        · rw [hinv]
        · rw [hinv]
        · rw [hinv]
    · rw [PayOrder_other_order h data args orderID hid]
      exact hsame

theorem existing_order_immutable_witness :
    (∃ ov1, (Call.run codecHelpers orderBook (Call.pay ⟨"8", "8", 10⟩)).2
        (OrderKeyPrefix ++ "8") = some ov1 ∧
      (codecHelpers.parseOrderValue ov1).2 = (codecHelpers.parseOrderValue "W;10;1;1;1;").2 ∧
      (ov1 = "W;10;1;1;1;" ∨
        ((codecHelpers.parseOrderValue "W;10;1;1;1;").1 = false ∧
          (codecHelpers.parseOrderValue ov1).1 = true))) ∧
    (∃ ov2, (Call.run codecHelpers (PayOrder codecHelpers orderBook ⟨"8", "8", 10⟩).2
        (Call.submit ⟨"1", "8", "1;1:1"⟩)).2 (OrderKeyPrefix ++ "8") = some ov2 ∧
      (codecHelpers.parseOrderValue ov2).1 = true) := by
  constructor
  · obtain ⟨ov1, h1, h2, h3, _⟩ :=
      existing_order_immutable codecHelpers codecHelpers_inverts orderBook
        (Call.pay ⟨"8", "8", 10⟩) "8" "W;10;1;1;1;" (by decide)
    exact ⟨ov1, h1, h2, h3⟩
  · obtain ⟨ov2, h1, _, _, h4⟩ :=
      existing_order_immutable codecHelpers codecHelpers_inverts
        (PayOrder codecHelpers orderBook ⟨"8", "8", 10⟩).2
        (Call.submit ⟨"1", "8", "1;1:1"⟩) "8" "P;10;1;1;1;" (by decide)
    exact ⟨ov2, h1, h4 (by decide)⟩

/-- C13: scalar round trip with the existed-before flag. `Get` on an absent key replies
`(false, "")`; `Put(k, v)` replies `(false, v)` on an absent key and `(true, v)` on a
present one; `Get(k)` after `Put(k, v)` replies `(true, v)`; `Get(k)` after `Del(k)`
replies `(false, "")`. -/
theorem scalar_round_trip (data : Data) (k v : String) :
    (data k = none → TinyStoreGet data k = ⟨false, ""⟩) ∧
      (data k = none → (TinyStorePut data k v).1 = ⟨false, v⟩) ∧
      ((data k).isSome = true → (TinyStorePut data k v).1 = ⟨true, v⟩) ∧
      TinyStoreGet (TinyStorePut data k v).2 k = ⟨true, v⟩ ∧
      TinyStoreGet (TinyStoreDel data k) k = ⟨false, ""⟩ := by
  refine ⟨?_, ?_, ?_, ?_, ?_⟩
  · intro hk
    simp [TinyStoreGet, hk]
  · intro hk
    simp [TinyStorePut, hk]
  · intro hk
    simp [TinyStorePut, hk]
  · simp [TinyStoreGet, TinyStorePut, put_same]
  · simp [TinyStoreGet, TinyStoreDel]

theorem scalar_round_trip_witness :
    TinyStoreGet emptyData "key1" = ⟨false, ""⟩ ∧
      (TinyStorePut emptyData "key1" "1").1 = ⟨false, "1"⟩ ∧
      (TinyStorePut (TinyStorePut emptyData "key1" "1").2 "key1" "2").1 = ⟨true, "2"⟩ ∧
      TinyStoreGet (TinyStorePut emptyData "key1" "1").2 "key1" = ⟨true, "1"⟩ ∧
      TinyStoreGet (TinyStoreDel (TinyStorePut emptyData "key1" "1").2 "key1") "key1" =
        ⟨false, ""⟩ :=
  ⟨(scalar_round_trip emptyData "key1" "1").1 rfl,
    (scalar_round_trip emptyData "key1" "1").2.1 rfl,
    (scalar_round_trip (TinyStorePut emptyData "key1" "1").2 "key1" "2").2.2.1 (by decide),
    (scalar_round_trip emptyData "key1" "1").2.2.2.1,
    (scalar_round_trip (TinyStorePut emptyData "key1" "1").2 "key1" "1").2.2.2.2⟩

/-! ## Lemmas: iteration order -/

theorem stockShort_perm (data : Data) (l1 l2 : List (Int × Int)) (hp : l1.Perm l2) :
    stockShort data l1 = stockShort data l2 := by
  have hiff : stockShort data l1 = false ↔ stockShort data l2 = false := by
    rw [stockShort_false_iff, stockShort_false_iff]
    constructor
    · intro hall p hp2
      exact hall p (hp.mem_iff.2 hp2)
    · intro hall p hp1
      exact hall p (hp.mem_iff.1 hp1)
  cases h1 : stockShort data l1 <;> cases h2 : stockShort data l2 <;> simp_all

theorem priceSum_perm (data : Data) (l1 l2 : List (Int × Int)) (hp : l1.Perm l2) :
    priceSum data l1 = priceSum data l2 := by
  unfold priceSum
  exact (hp.map _).sum_eq

theorem deductStock_perm (data : Data) (l1 l2 : List (Int × Int)) (hp : l1.Perm l2)
    (hnd : (l2.map Prod.fst).Nodup) : deductStock data 0 l1 = deductStock data 0 l2 := by
  have hnd1 : (l1.map Prod.fst).Nodup := (hp.map Prod.fst).nodup_iff.2 hnd
  have h0 : wrapInt 0 = 0 := by decide
  have hprice : (deductStock data 0 l1).2 = (deductStock data 0 l2).2 := by
    have e1 := deductStock_price l1 data data 0 (fun _ => rfl)
    have e2 := deductStock_price l2 data data 0 (fun _ => rfl)
    rw [h0] at e1 e2
    rw [e1, e2, priceSum_perm data l1 l2 hp]
  have hstore : (deductStock data 0 l1).1 = (deductStock data 0 l2).1 := by
    funext k
    by_cases hmem : ∃ p ∈ l1, k = ItemsStockKeyPrefix ++ Itoa p.1
    · obtain ⟨p, hp1, hk⟩ := hmem
      rw [hk, deductStock_item l1 data 0 hnd1 p hp1,
        deductStock_item l2 data 0 hnd p (hp.mem_iff.1 hp1)]
    · rw [deductStock_other l1 data 0 k (fun p hp1 e => hmem ⟨p, hp1, e⟩),
        deductStock_other l2 data 0 k (fun p hp2 e => hmem ⟨p, hp.mem_iff.2 hp2, e⟩)]
  exact Prod.ext hstore hprice

theorem SubmitOrderWalk_eq (h : Helpers) (data : Data) (args : SubmitOrderArgs)
    (walk1 walk2 : List (Int × Int))
    (h1 : walk1.Perm (h.parseCartValue args.CartValue).2.items)
    (h2 : walk2.Perm (h.parseCartValue args.CartValue).2.items) :
    SubmitOrderWalk h data args walk1 walk2 = SubmitOrder h data args ∧
      (deductStock data 0 walk2).2 =
        (deductStock data 0 (h.parseCartValue args.CartValue).2.items).2 := by
  have hd := deductStock_perm data walk2 _ h2 (h.parseCartValue args.CartValue).2.nodup
  refine ⟨?_, by rw [hd]⟩
  unfold SubmitOrderWalk SubmitOrder
  simp only
  rw [stockShort_perm data walk1 _ h1, hd]

/-! ## Lemmas: keys of different families -/

theorem order_ne_price (a b : String) : OrderKeyPrefix ++ a ≠ ItemsPriceKeyPrefix ++ b := by
  intro h
  have h1 := congrArg String.data h
  simp [ItemsPriceKeyPrefix, OrderKeyPrefix, String.data_append] at h1

theorem order_ne_token (a b : String) : OrderKeyPrefix ++ a ≠ TokenKeyPrefix ++ b := by
  intro h
  have h1 := congrArg String.data h
  simp [TokenKeyPrefix, OrderKeyPrefix, String.data_append] at h1

theorem stock_ne_balance (a b : String) :
    ItemsStockKeyPrefix ++ a ≠ BalanceKeyPrefix ++ b := by
  intro h
  have h1 := congrArg String.data h
  simp [ItemsStockKeyPrefix, BalanceKeyPrefix, String.data_append] at h1

theorem stock_ne_token (a b : String) : ItemsStockKeyPrefix ++ a ≠ TokenKeyPrefix ++ b := by
  intro h
  have h1 := congrArg String.data h
  simp [ItemsStockKeyPrefix, TokenKeyPrefix, String.data_append] at h1

/-! ## Lemmas: the keys written by the two operations -/

theorem SubmitOrder_other (h : Helpers) (data : Data) (args : SubmitOrderArgs) (k : String)
    (hk : k ≠ OrderKeyPrefix ++ args.UserToken)
    (hs : ∀ p ∈ (h.parseCartValue args.CartValue).2.items, k ≠ ItemsStockKeyPrefix ++ Itoa p.1) :
    (SubmitOrder h data args).2 k = data k := by
  by_cases hok : (SubmitOrder h data args).1 = OK
  · have hboth := (SubmitOrder_ok_iff h data args).1 hok
    rw [SubmitOrder_ok h data args hboth.1 hboth.2]
    simp only
    rw [put_other _ _ _ _ hk, deductStock_other _ _ _ _ hs]
  · rw [SubmitOrder_rejected_store h data args hok]

theorem PayOrder_other (h : Helpers) (data : Data) (args : PayOrderArgs) (k : String)
    (hb : k ≠ BalanceKeyPrefix ++ args.UserToken)
    (hr : k ≠ BalanceKeyPrefix ++ h.RootUserToken)
    (ho : k ≠ OrderKeyPrefix ++ args.OrderIDStr) :
    (PayOrder h data args).2 k = data k := by
  cases hp : (h.parseOrderValue (data.read (OrderKeyPrefix ++ args.OrderIDStr))).1 with
  | true => rw [PayOrder_paid h data args hp]
  | false =>
    cases hbal : data (BalanceKeyPrefix ++ args.UserToken) with
    | none =>
      rw [PayOrder_no_account h data args hp hbal]
      exact payCredit_other _ _ _ _ _ _ _ hr ho
    | some v =>
      by_cases hlt : Atoi v < args.Delta
      · rw [PayOrder_short h data args v hp hbal hlt]
      · rw [PayOrder_debit h data args v hp hbal hlt]
        simp only
        rw [payCredit_other _ _ _ _ _ _ _ hr ho, put_other _ _ _ _ hb]

theorem PayOrder_ok_writes_order (h : Helpers) (data : Data) (args : PayOrderArgs)
    (hok : (PayOrder h data args).1 = OK) :
    ((PayOrder h data args).2 (OrderKeyPrefix ++ args.OrderIDStr)).isSome = true := by
  rcases PayOrder_same_order h data args with hun | ⟨_, hnew⟩
  · have hp := PayOrder_ok_not_paid h data args hok
    cases hbal : data (BalanceKeyPrefix ++ args.UserToken) with
    | none =>
      rw [PayOrder_no_account h data args hp hbal]
      simp [payCredit_order]
    | some v =>
      by_cases hlt : Atoi v < args.Delta
      · rw [PayOrder_short h data args v hp hbal hlt] at hok
        exact absurd hok (show BalanceInsufficient ≠ OK by decide)
      · rw [PayOrder_debit h data args v hp hbal hlt]
        simp [payCredit_order]
  · rw [hnew]
    rfl

theorem put_present (data : Data) (k0 v k : String) (h0 : (data k0).isSome = true)
    (hk : (data.put k0 v k).isSome = true) : (data k).isSome = true := by
  by_cases e : k = k0
  · rw [e]
    exact h0
  · rw [put_other _ _ _ _ e] at hk
    exact hk

theorem payCredit_present (h : Helpers) (data : Data) (args : PayOrderArgs) (price num : Int)
    (detail : Cart) (k : String)
    (hk : (payCredit h data args price num detail k).isSome = true) :
    (data k).isSome = true ∨ k = OrderKeyPrefix ++ args.OrderIDStr := by
  by_cases ho : k = OrderKeyPrefix ++ args.OrderIDStr
  · exact Or.inr ho
  · left
    unfold payCredit at hk
    rw [put_other _ _ _ _ ho] at hk
    cases hroot : data (BalanceKeyPrefix ++ h.RootUserToken) with
    | none =>
      rw [hroot] at hk
      exact hk
    | some value =>
      rw [hroot] at hk
      exact put_present _ _ _ _ (by simp [hroot]) hk

theorem PayOrder_present_after (h : Helpers) (data : Data) (args : PayOrderArgs) :
    (∀ k : String, ((PayOrder h data args).2 k).isSome = true →
      (data k).isSome = true ∨
        (k = OrderKeyPrefix ++ args.OrderIDStr ∧ (PayOrder h data args).1 = OK)) ∧
    ((PayOrder h data args).1 = OK →
      ((PayOrder h data args).2 (OrderKeyPrefix ++ args.OrderIDStr)).isSome = true) := by
  refine ⟨?_, PayOrder_ok_writes_order h data args⟩
  intro k hk
  cases hp : (h.parseOrderValue (data.read (OrderKeyPrefix ++ args.OrderIDStr))).1 with
  | true =>
    rw [congrArg Prod.snd (PayOrder_paid h data args hp)] at hk
    exact Or.inl hk
  | false =>
    cases hbal : data (BalanceKeyPrefix ++ args.UserToken) with
    | none =>
      have hrun := PayOrder_no_account h data args hp hbal
      rw [congrArg Prod.snd hrun] at hk
      rcases payCredit_present _ _ _ _ _ _ _ hk with hin | hin
      · exact Or.inl hin
      · exact Or.inr ⟨hin, congrArg Prod.fst hrun⟩
    | some v =>
      by_cases hlt : Atoi v < args.Delta
      · rw [congrArg Prod.snd (PayOrder_short h data args v hp hbal hlt)] at hk
        exact Or.inl hk
      · have hrun := PayOrder_debit h data args v hp hbal hlt
        rw [congrArg Prod.snd hrun] at hk
        rcases payCredit_present _ _ _ _ _ _ _ hk with hin | hin
        · exact Or.inl (put_present _ _ _ _ (by simp [hbal]) hin)
        · exact Or.inr ⟨hin, congrArg Prod.fst hrun⟩

/-- C16: frame of the compound operations. `SubmitOrder` leaves unchanged every key other
than the `items_stock:` keys of the items in the cart and the order key of the caller; in
particular every price, balance and token key and the order key of every other user.
`PayOrder` leaves unchanged every key other than the balance key of the payer, the balance
key of the root account and the order key of the call. -/
theorem compound_operations_frame (h : Helpers) (data : Data) :
    (∀ (args : SubmitOrderArgs) (k : String),
      k ≠ OrderKeyPrefix ++ args.UserToken →
      (∀ p ∈ (h.parseCartValue args.CartValue).2.items, k ≠ ItemsStockKeyPrefix ++ Itoa p.1) →
        (SubmitOrder h data args).2 k = data k) ∧
    (∀ (args : SubmitOrderArgs) (s : String),
      (SubmitOrder h data args).2 (ItemsPriceKeyPrefix ++ s) = data (ItemsPriceKeyPrefix ++ s) ∧
      (SubmitOrder h data args).2 (BalanceKeyPrefix ++ s) = data (BalanceKeyPrefix ++ s) ∧
      (SubmitOrder h data args).2 (TokenKeyPrefix ++ s) = data (TokenKeyPrefix ++ s) ∧
      (s ≠ args.UserToken →
        (SubmitOrder h data args).2 (OrderKeyPrefix ++ s) = data (OrderKeyPrefix ++ s))) ∧
    (∀ (args : PayOrderArgs) (k : String),
      k ≠ BalanceKeyPrefix ++ args.UserToken →
      k ≠ BalanceKeyPrefix ++ h.RootUserToken →
      k ≠ OrderKeyPrefix ++ args.OrderIDStr →
        (PayOrder h data args).2 k = data k) := by
  refine ⟨fun args k hk hs => SubmitOrder_other h data args k hk hs, ?_,
    fun args k hb hr ho => PayOrder_other h data args k hb hr ho⟩
  intro args s
  refine ⟨?_, ?_, ?_, ?_⟩
  · exact SubmitOrder_other h data args _ (fun e => order_ne_price _ _ e.symm)
      (fun p _ e => stock_ne_price _ _ e.symm)
  · exact SubmitOrder_other h data args _ (fun e => order_ne_balance _ _ e.symm)
      (fun p _ e => stock_ne_balance _ _ e.symm)
  · exact SubmitOrder_other h data args _ (fun e => order_ne_token _ _ e.symm)
      (fun p _ e => stock_ne_token _ _ e.symm)
  · intro hs
    exact SubmitOrder_other h data args _ (order_key_ne _ _ hs)
      (fun p _ e => order_ne_stock _ _ e)

theorem compound_operations_frame_witness :
    (SubmitOrder codecHelpers orderBook ⟨"1", "7", "2;1:1;5:1"⟩).2 "items_price:1" =
        orderBook "items_price:1" ∧
      (SubmitOrder codecHelpers orderBook ⟨"1", "7", "2;1:1;5:1"⟩).2 (OrderKeyPrefix ++ "8") =
        orderBook (OrderKeyPrefix ++ "8") ∧
      (PayOrder codecHelpers orderBook ⟨"8", "8", 10⟩).2 "items_stock:1" =
        orderBook "items_stock:1" :=
  ⟨(compound_operations_frame codecHelpers orderBook).1 ⟨"1", "7", "2;1:1;5:1"⟩
      "items_price:1" (by decide) (by decide),
    ((compound_operations_frame codecHelpers orderBook).2.1 ⟨"1", "7", "2;1:1;5:1"⟩
      "8").2.2.2 (by decide),
    (compound_operations_frame codecHelpers orderBook).2.2 ⟨"8", "8", 10⟩
      "items_stock:1" (by decide) (by decide) (by decide)⟩

/-- C5 (as stated, refuted): the only cart item has a stock counter, at the largest `int`,
and the cart asks for minus one unit. `SubmitOrder` replies OK and the counter after the
call is the smallest `int`, not the text of 9223372036854775807 minus -1. -/
theorem SubmitOrder_decrement_wraps :
    (∀ p ∈ (sampleHelpers.parseCartValue "-1;1:-1").2.items,
      (fullStockData (ItemsStockKeyPrefix ++ Itoa p.1)).isSome = true) ∧
      (SubmitOrder sampleHelpers fullStockData ⟨"1", "7", "-1;1:-1"⟩).1 = OK ∧
      (1, -1) ∈ (sampleHelpers.parseCartValue "-1;1:-1").2.items ∧
      fullStockData (ItemsStockKeyPrefix ++ Itoa 1) = some "9223372036854775807" ∧
      (SubmitOrder sampleHelpers fullStockData ⟨"1", "7", "-1;1:-1"⟩).2
        (ItemsStockKeyPrefix ++ Itoa 1) = some "-9223372036854775808" ∧
      Itoa (Atoi "9223372036854775807" - -1) = "9223372036854775808" := by
  decide

/-- C5 (amended): when every cart item has a stock counter and `SubmitOrder` replies OK,
the stock counter of each cart item after the call is the decimal text of its integer
value before the call minus the requested quantity, computed as a 64-bit Go `int`: it is
the text of the exact difference whenever that difference does not exceed the largest
`int`, in particular for every item whose requested quantity is not negative. Each item is
decremented once. -/
theorem SubmitOrder_ok_decrements_stock (h : Helpers) (data : Data) (args : SubmitOrderArgs)
    (hstock : ∀ p ∈ (h.parseCartValue args.CartValue).2.items,
      (data (ItemsStockKeyPrefix ++ Itoa p.1)).isSome = true)
    (hok : (SubmitOrder h data args).1 = OK) :
    ∀ p ∈ (h.parseCartValue args.CartValue).2.items,
      ∃ v, data (ItemsStockKeyPrefix ++ Itoa p.1) = some v ∧
        (SubmitOrder h data args).2 (ItemsStockKeyPrefix ++ Itoa p.1) =
          some (Itoa (goSub (Atoi v) p.2)) ∧
        (Atoi v - p.2 ≤ maxInt →
          (SubmitOrder h data args).2 (ItemsStockKeyPrefix ++ Itoa p.1) =
            some (Itoa (Atoi v - p.2))) ∧
        (0 ≤ p.2 →
          (SubmitOrder h data args).2 (ItemsStockKeyPrefix ++ Itoa p.1) =
            some (Itoa (Atoi v - p.2))) := by
  intro p hp
  have hboth := (SubmitOrder_ok_iff h data args).1 hok
  obtain ⟨v, hv⟩ := Option.isSome_iff_exists.1 (hstock p hp)
  have hle : p.2 ≤ Atoi v := (stockShort_false_iff data _).1 hboth.1 p hp v hv
  have hafter : (SubmitOrder h data args).2 (ItemsStockKeyPrefix ++ Itoa p.1) =
      some (Itoa (goSub (Atoi v) p.2)) := by
    rw [SubmitOrder_ok h data args hboth.1 hboth.2]
    simp only
    rw [put_other _ _ _ _ (fun e => order_ne_stock _ _ e.symm),
      deductStock_item _ _ _ (h.parseCartValue args.CartValue).2.nodup p hp, hv]
    rfl
  have hfit : Atoi v - p.2 ≤ maxInt → goSub (Atoi v) p.2 = Atoi v - p.2 := by
    intro hmax
    unfold goSub
    exact wrapInt_of_range _ (by unfold minInt; omega) hmax
  refine ⟨v, hv, hafter, ?_, ?_⟩
  · intro hmax
    rw [hafter, hfit hmax]
  · intro h0
    have hmax : Atoi v - p.2 ≤ maxInt := by
      have := (Atoi_range v).2
      omega
    rw [hafter, hfit hmax]

theorem SubmitOrder_ok_decrements_stock_witness :
    (SubmitOrder sampleHelpers sampleData ⟨"1", "7", "1;1:1"⟩).1 = OK ∧
      ∃ v, sampleData (ItemsStockKeyPrefix ++ Itoa 1) = some v ∧
        (SubmitOrder sampleHelpers sampleData ⟨"1", "7", "1;1:1"⟩).2
            (ItemsStockKeyPrefix ++ Itoa 1) = some (Itoa (goSub (Atoi v) 1)) ∧
        (SubmitOrder sampleHelpers sampleData ⟨"1", "7", "1;1:1"⟩).2
            (ItemsStockKeyPrefix ++ Itoa 1) = some (Itoa (Atoi v - 1)) :=
  ⟨by decide, by
    obtain ⟨v, hv, hafter, _, hexact⟩ :=
      SubmitOrder_ok_decrements_stock sampleHelpers sampleData ⟨"1", "7", "1;1:1"⟩
        (by decide) (by decide) (1, 1) (by decide)
    exact ⟨v, hv, hafter, hexact (by decide)⟩⟩

/-- C6 (as stated, refuted): item 1 costs 9223372036854775807 and item 5 costs 1. For a
cart of one unit of each `SubmitOrder` replies OK, the exact sum is 9223372036854775808,
and the total stored in the order is -9223372036854775808. -/
theorem SubmitOrder_total_wraps :
    (SubmitOrder codecHelpers dearData ⟨"1", "7", "2;1:1;5:1"⟩).1 = OK ∧
      priceSum dearData (codecHelpers.parseCartValue "2;1:1;5:1").2.items =
        9223372036854775808 ∧
      (SubmitOrder codecHelpers dearData ⟨"1", "7", "2;1:1;5:1"⟩).2 (OrderKeyPrefix ++ "7") =
        some "W;-9223372036854775808;2;1;1;5;1;" ∧
      codecHelpers.composeOrderValue false (-9223372036854775808)
          (codecHelpers.parseCartValue "2;1:1;5:1").1
          (codecHelpers.parseCartValue "2;1:1;5:1").2 = "W;-9223372036854775808;2;1;1;5;1;" ∧
      (SubmitOrder codecHelpers dearData ⟨"1", "7", "2;1:1;5:1"⟩).2 (OrderKeyPrefix ++ "7") ≠
        some (codecHelpers.composeOrderValue false
          (priceSum dearData (codecHelpers.parseCartValue "2;1:1;5:1").2.items)
          (codecHelpers.parseCartValue "2;1:1;5:1").1
          (codecHelpers.parseCartValue "2;1:1;5:1").2) := by
  decide

/-! ## Lemmas: the balances after `PayOrder` -/

theorem goAdd_goSub_cancel (a d : Int) (h1 : minInt ≤ a) (h2 : a ≤ maxInt) :
    goAdd (goSub a d) d = a := by
  unfold goAdd goSub
  rw [wrapInt_add_left]
  have : a - d + d = a := by omega
  rw [this]
  exact wrapInt_of_range a h1 h2

theorem Atoi_Itoa_wrap (z : Int) : Atoi (Itoa (wrapInt z)) = wrapInt z :=
  Atoi_Itoa _ (wrapInt_range z).1 (wrapInt_range z).2

theorem PayOrder_ok_cases (h : Helpers) (data : Data) (args : PayOrderArgs)
    (hok : (PayOrder h data args).1 = OK) :
    (data (BalanceKeyPrefix ++ args.UserToken) = none ∧
      (PayOrder h data args).2 = payCredit h data args
        (h.parseOrderValue (data.read (OrderKeyPrefix ++ args.OrderIDStr))).2.1
        (h.parseOrderValue (data.read (OrderKeyPrefix ++ args.OrderIDStr))).2.2.1
        (h.parseOrderValue (data.read (OrderKeyPrefix ++ args.OrderIDStr))).2.2.2) ∨
    (∃ v, data (BalanceKeyPrefix ++ args.UserToken) = some v ∧ args.Delta ≤ Atoi v ∧
      (PayOrder h data args).2 = payCredit h
        (data.put (BalanceKeyPrefix ++ args.UserToken) (Itoa (goSub (Atoi v) args.Delta))) args
        (h.parseOrderValue (data.read (OrderKeyPrefix ++ args.OrderIDStr))).2.1
        (h.parseOrderValue (data.read (OrderKeyPrefix ++ args.OrderIDStr))).2.2.1
        (h.parseOrderValue (data.read (OrderKeyPrefix ++ args.OrderIDStr))).2.2.2) := by
  have hp := PayOrder_ok_not_paid h data args hok
  cases hbal : data (BalanceKeyPrefix ++ args.UserToken) with
  | none =>
    left
    exact ⟨rfl, congrArg Prod.snd (PayOrder_no_account h data args hp hbal)⟩
  | some v =>
    right
    by_cases hlt : Atoi v < args.Delta
    · rw [PayOrder_short h data args v hp hbal hlt] at hok
      exact absurd hok (show BalanceInsufficient ≠ OK by decide)
    · exact ⟨v, rfl, by omega, congrArg Prod.snd (PayOrder_debit h data args v hp hbal hlt)⟩

theorem payCredit_root_absent (h : Helpers) (data : Data) (args : PayOrderArgs)
    (price num : Int) (detail : Cart)
    (hr : data (BalanceKeyPrefix ++ h.RootUserToken) = none) :
    payCredit h data args price num detail (BalanceKeyPrefix ++ h.RootUserToken) = none := by
  unfold payCredit
  rw [put_other _ _ _ _ (fun e => order_ne_balance _ _ e.symm), hr]
  exact hr

theorem PayOrder_ok_paid (h : Helpers) (data : Data) (args : PayOrderArgs)
    (hflag : ∀ price num detail,
      (h.parseOrderValue (h.composeOrderValue true price num detail)).1 = true)
    (hok : (PayOrder h data args).1 = OK) :
    (h.parseOrderValue
      ((PayOrder h data args).2.read (OrderKeyPrefix ++ args.OrderIDStr))).1 = true := by
  rcases PayOrder_ok_cases h data args hok with ⟨_, hrun⟩ | ⟨v, _, _, hrun⟩ <;>
    (rw [hrun]; simp only [Data.read, payCredit_order, Option.getD_some]; exact hflag _ _ _)

theorem PayOrder_ok_debit (h : Helpers) (data : Data) (args : PayOrderArgs) (vp : String)
    (hne : args.UserToken ≠ h.RootUserToken)
    (hp : data (BalanceKeyPrefix ++ args.UserToken) = some vp)
    (hok : (PayOrder h data args).1 = OK) :
    (PayOrder h data args).2 (BalanceKeyPrefix ++ args.UserToken) =
      some (Itoa (goSub (Atoi vp) args.Delta)) ∧ args.Delta ≤ Atoi vp := by
  rcases PayOrder_ok_cases h data args hok with ⟨hnone, _⟩ | ⟨v, hv, hge, hrun⟩
  · rw [hnone] at hp
    cases hp
  · rw [hv] at hp
    cases hp
    rw [hrun, payCredit_other _ _ _ _ _ _ _ (balance_key_ne _ _ hne)
      (fun e => order_ne_balance _ _ e.symm), put_same]
    exact ⟨rfl, hge⟩

theorem PayOrder_ok_credit (h : Helpers) (data : Data) (args : PayOrderArgs) (vr : String)
    (hne : args.UserToken ≠ h.RootUserToken)
    (hr : data (BalanceKeyPrefix ++ h.RootUserToken) = some vr)
    (hok : (PayOrder h data args).1 = OK) :
    (PayOrder h data args).2 (BalanceKeyPrefix ++ h.RootUserToken) =
      some (Itoa (goAdd (Atoi vr) args.Delta)) := by
  have hkeys : BalanceKeyPrefix ++ h.RootUserToken ≠ BalanceKeyPrefix ++ args.UserToken :=
    balance_key_ne _ _ (Ne.symm hne)
  rcases PayOrder_ok_cases h data args hok with ⟨_, hrun⟩ | ⟨v, _, _, hrun⟩
  · rw [hrun, payCredit_root _ _ _ _ _ _ vr hr]
  · rw [hrun, payCredit_root _ _ _ _ _ _ vr (by rw [put_other _ _ _ _ hkeys]; exact hr)]

theorem PayOrder_ok_root_payer (h : Helpers) (data : Data) (args : PayOrderArgs) (v : String)
    (heq : args.UserToken = h.RootUserToken)
    (hp : data (BalanceKeyPrefix ++ args.UserToken) = some v)
    (hok : (PayOrder h data args).1 = OK) :
    (PayOrder h data args).2 (BalanceKeyPrefix ++ args.UserToken) = some (Itoa (Atoi v)) := by
  rcases PayOrder_ok_cases h data args hok with ⟨hnone, _⟩ | ⟨w, hw, _, hrun⟩
  · rw [hnone] at hp
    cases hp
  · rw [hw] at hp
    cases hp
    rw [hrun, heq, payCredit_root _ _ _ _ _ _ (Itoa (goSub (Atoi v) args.Delta))
      (by rw [put_same])]
    have hround : Atoi (Itoa (goSub (Atoi v) args.Delta)) = goSub (Atoi v) args.Delta :=
      Atoi_Itoa_wrap _
    rw [hround, goAdd_goSub_cancel _ _ (Atoi_range v).1 (Atoi_range v).2]

theorem PayOrder_absent_balances (h : Helpers) (data : Data) (args : PayOrderArgs) :
    (data (BalanceKeyPrefix ++ args.UserToken) = none →
      (PayOrder h data args).2 (BalanceKeyPrefix ++ args.UserToken) = none) ∧
    (data (BalanceKeyPrefix ++ h.RootUserToken) = none →
      (PayOrder h data args).2 (BalanceKeyPrefix ++ h.RootUserToken) = none) := by
  have hgen : ∀ k : String, (∃ s, k = BalanceKeyPrefix ++ s) → data k = none →
      (PayOrder h data args).2 k = none := by
    intro k hk hnone
    cases hafter : (PayOrder h data args).2 k with
    | none => rfl
    | some w =>
      exfalso
      rcases (PayOrder_present_after h data args).1 k (by simp [hafter]) with hin | ⟨hin, _⟩
      · simp [hnone] at hin
      · obtain ⟨s, hs⟩ := hk
        rw [hs] at hin
        exact order_ne_balance _ _ hin.symm
  exact ⟨hgen _ ⟨_, rfl⟩, hgen _ ⟨_, rfl⟩⟩

/-- C10 (as stated, refuted): `PayOrder` replies OK in each of five runs that break the
claim. A payer without a balance key is not debited. The root user as payer is debited
and credited, and its balance is unchanged. An absent root balance is not credited. A
balance of 100 debited by the amount -9223372036854775808 wraps around to
-9223372036854775708. A root balance of 9223372036854775807 credited by 1 wraps around
to -9223372036854775808. -/
theorem PayOrder_ok_without_transfer :
    ((PayOrder sampleHelpers sampleData ⟨"8", "6", 10⟩).1 = OK ∧
      sampleData (BalanceKeyPrefix ++ "6") = none ∧
      (PayOrder sampleHelpers sampleData ⟨"8", "6", 10⟩).2 (BalanceKeyPrefix ++ "6") = none ∧
      Atoi ((PayOrder sampleHelpers sampleData ⟨"8", "6", 10⟩).2.read (BalanceKeyPrefix ++ "6")) ≠
        Atoi (sampleData.read (BalanceKeyPrefix ++ "6")) - 10) ∧
    ((PayOrder sampleHelpers sampleData ⟨"8", "0", 10⟩).1 = OK ∧
      sampleData (BalanceKeyPrefix ++ "0") = some "50" ∧
      (PayOrder sampleHelpers sampleData ⟨"8", "0", 10⟩).2 (BalanceKeyPrefix ++ "0") =
        some "50") ∧
    ((PayOrder sampleHelpers noRootData ⟨"8", "7", 10⟩).1 = OK ∧
      noRootData (BalanceKeyPrefix ++ sampleHelpers.RootUserToken) = none ∧
      (PayOrder sampleHelpers noRootData ⟨"8", "7", 10⟩).2
        (BalanceKeyPrefix ++ sampleHelpers.RootUserToken) = none) ∧
    ((PayOrder sampleHelpers sampleData ⟨"8", "7", -9223372036854775808⟩).1 = OK ∧
      sampleData (BalanceKeyPrefix ++ "7") = some "100" ∧
      (PayOrder sampleHelpers sampleData ⟨"8", "7", -9223372036854775808⟩).2
        (BalanceKeyPrefix ++ "7") = some "-9223372036854775708" ∧
      Atoi "100" - -9223372036854775808 = 9223372036854775908) ∧
    ((PayOrder sampleHelpers richRootData ⟨"8", "7", 1⟩).1 = OK ∧
      richRootData (BalanceKeyPrefix ++ "0") = some "9223372036854775807" ∧
      (PayOrder sampleHelpers richRootData ⟨"8", "7", 1⟩).2 (BalanceKeyPrefix ++ "0") =
        some "-9223372036854775808") := by
  decide

/-- C10 (amended): whenever `PayOrder` replies OK, the order value after the call parses
as paid (assuming `parseOrderValue` reads back the paid flag written by
`composeOrderValue`). When the payer is not the root user and has a balance key, its
balance after the call is its balance before minus the amount; when the payer is not the
root user and the root account has a balance key, the root balance after the call is its
balance before plus the amount. Both are computed as a 64-bit Go `int`, which is the exact
result whenever that fits in an `int`; the difference fits for every non-negative amount.
When the payer is the root user and has a balance key, its balance is debited and
credited and is the one before the call. A balance key absent before the call is absent
after it. -/
theorem PayOrder_ok_transfers (h : Helpers) (data : Data) (args : PayOrderArgs)
    (hok : (PayOrder h data args).1 = OK) :
    ((∀ price num detail,
        (h.parseOrderValue (h.composeOrderValue true price num detail)).1 = true) →
      (h.parseOrderValue
        ((PayOrder h data args).2.read (OrderKeyPrefix ++ args.OrderIDStr))).1 = true) ∧
    (∀ vp : String, args.UserToken ≠ h.RootUserToken →
      data (BalanceKeyPrefix ++ args.UserToken) = some vp →
        Atoi ((PayOrder h data args).2.read (BalanceKeyPrefix ++ args.UserToken)) =
          goSub (Atoi vp) args.Delta ∧
        (Atoi vp - args.Delta ≤ maxInt →
          Atoi ((PayOrder h data args).2.read (BalanceKeyPrefix ++ args.UserToken)) =
            Atoi vp - args.Delta) ∧
        (0 ≤ args.Delta →
          Atoi ((PayOrder h data args).2.read (BalanceKeyPrefix ++ args.UserToken)) =
            Atoi vp - args.Delta)) ∧
    (∀ vr : String, args.UserToken ≠ h.RootUserToken →
      data (BalanceKeyPrefix ++ h.RootUserToken) = some vr →
        Atoi ((PayOrder h data args).2.read (BalanceKeyPrefix ++ h.RootUserToken)) =
          goAdd (Atoi vr) args.Delta ∧
        (minInt ≤ Atoi vr + args.Delta → Atoi vr + args.Delta ≤ maxInt →
          Atoi ((PayOrder h data args).2.read (BalanceKeyPrefix ++ h.RootUserToken)) =
            Atoi vr + args.Delta)) ∧
    (∀ v : String, args.UserToken = h.RootUserToken →
      data (BalanceKeyPrefix ++ args.UserToken) = some v →
        Atoi ((PayOrder h data args).2.read (BalanceKeyPrefix ++ args.UserToken)) = Atoi v) ∧
    (data (BalanceKeyPrefix ++ args.UserToken) = none →
      (PayOrder h data args).2 (BalanceKeyPrefix ++ args.UserToken) = none) ∧
    (data (BalanceKeyPrefix ++ h.RootUserToken) = none →
      (PayOrder h data args).2 (BalanceKeyPrefix ++ h.RootUserToken) = none) := by
  refine ⟨fun hflag => PayOrder_ok_paid h data args hflag hok, ?_, ?_, ?_,
    (PayOrder_absent_balances h data args).1, (PayOrder_absent_balances h data args).2⟩
  · intro vp hne hp
    obtain ⟨hafter, hge⟩ := PayOrder_ok_debit h data args vp hne hp hok
    have hread : Atoi ((PayOrder h data args).2.read (BalanceKeyPrefix ++ args.UserToken)) =
        goSub (Atoi vp) args.Delta := by
      simp only [Data.read, hafter, Option.getD_some]
      exact Atoi_Itoa_wrap _
    have hfit : Atoi vp - args.Delta ≤ maxInt →
        goSub (Atoi vp) args.Delta = Atoi vp - args.Delta := by
      intro hmax
      unfold goSub
      exact wrapInt_of_range _ (by unfold minInt; omega) hmax
    refine ⟨hread, fun hmax => by rw [hread, hfit hmax], fun h0 => ?_⟩
    have hmax : Atoi vp - args.Delta ≤ maxInt := by
      have := (Atoi_range vp).2
      omega
    rw [hread, hfit hmax]
  · intro vr hne hr
    have hafter := PayOrder_ok_credit h data args vr hne hr hok
    have hread : Atoi ((PayOrder h data args).2.read (BalanceKeyPrefix ++ h.RootUserToken)) =
        goAdd (Atoi vr) args.Delta := by
      simp only [Data.read, hafter, Option.getD_some]
      exact Atoi_Itoa_wrap _
    refine ⟨hread, fun h1 h2 => ?_⟩
    rw [hread]
    unfold goAdd
    exact wrapInt_of_range _ h1 h2
  · intro v heq hp
    have hafter := PayOrder_ok_root_payer h data args v heq hp hok
    simp only [Data.read, hafter, Option.getD_some]
    exact Atoi_Itoa _ (Atoi_range v).1 (Atoi_range v).2

theorem PayOrder_ok_transfers_witness :
    (PayOrder sampleHelpers sampleData ⟨"8", "7", 10⟩).1 = OK ∧
      (sampleHelpers.parseOrderValue
        ((PayOrder sampleHelpers sampleData ⟨"8", "7", 10⟩).2.read (OrderKeyPrefix ++ "8"))).1 =
          true ∧
      Atoi ((PayOrder sampleHelpers sampleData ⟨"8", "7", 10⟩).2.read (BalanceKeyPrefix ++ "7")) =
        Atoi "100" - 10 ∧
      Atoi ((PayOrder sampleHelpers sampleData ⟨"8", "7", 10⟩).2.read
        (BalanceKeyPrefix ++ sampleHelpers.RootUserToken)) = Atoi "50" + 10 ∧
      Atoi ((PayOrder sampleHelpers sampleData ⟨"8", "0", 10⟩).2.read (BalanceKeyPrefix ++ "0")) =
        Atoi "50" ∧
      (PayOrder sampleHelpers sampleData ⟨"8", "6", 10⟩).2 (BalanceKeyPrefix ++ "6") = none ∧
      (PayOrder sampleHelpers noRootData ⟨"8", "7", 10⟩).2
        (BalanceKeyPrefix ++ sampleHelpers.RootUserToken) = none := by
  obtain ⟨h1, h2, h3, _, _, _⟩ :=
    PayOrder_ok_transfers sampleHelpers sampleData ⟨"8", "7", 10⟩ (by decide)
  obtain ⟨_, _, _, h4, _, _⟩ :=
    PayOrder_ok_transfers sampleHelpers sampleData ⟨"8", "0", 10⟩ (by decide)
  obtain ⟨_, _, _, _, h5, _⟩ :=
    PayOrder_ok_transfers sampleHelpers sampleData ⟨"8", "6", 10⟩ (by decide)
  obtain ⟨_, _, _, _, _, h6⟩ :=
    PayOrder_ok_transfers sampleHelpers noRootData ⟨"8", "7", 10⟩ (by decide)
  exact ⟨by decide,
    h1 (fun price num detail => by simp [sampleHelpers, String.data_append]),
    (h2 "100" (by decide) (by decide)).2.2 (by decide),
    (h3 "50" (by decide) (by decide)).2 (by decide) (by decide),
    h4 "50" rfl (by decide), h5 (by decide), h6 (by decide)⟩

/-- C11 (as stated, refuted): on the sample store the order 8 is unpaid, and in both runs
the two calls reply OK and then OrderPaid. When the root user 0 pays 10 from a balance of
50, the balance is debited and credited by the first call and is still 50 after both
calls. When user 7 pays the amount -9223372036854775808 from a balance of 100, the
subtraction wraps around and the balance after both calls is -9223372036854775708, not
9223372036854775908. -/
theorem PayOrder_twice_not_initial_minus_amount :
    (sampleData (OrderKeyPrefix ++ "8") = some "W;10;1" ∧
      (sampleHelpers.parseOrderValue "W;10;1").1 = false) ∧
    (sampleData (BalanceKeyPrefix ++ "0") = some "50" ∧
      (10 : Int) ≤ Atoi "50" ∧
      (PayOrder sampleHelpers sampleData ⟨"8", "0", 10⟩).1 = OK ∧
      (PayOrder sampleHelpers (PayOrder sampleHelpers sampleData ⟨"8", "0", 10⟩).2
        ⟨"8", "0", 10⟩).1 = OrderPaid ∧
      (PayOrder sampleHelpers (PayOrder sampleHelpers sampleData ⟨"8", "0", 10⟩).2
        ⟨"8", "0", 10⟩).2 (BalanceKeyPrefix ++ "0") = some "50" ∧
      Atoi "50" ≠ Atoi "50" - 10) ∧
    (sampleData (BalanceKeyPrefix ++ "7") = some "100" ∧
      (-9223372036854775808 : Int) ≤ Atoi "100" ∧
      (PayOrder sampleHelpers sampleData ⟨"8", "7", -9223372036854775808⟩).1 = OK ∧
      (PayOrder sampleHelpers
        (PayOrder sampleHelpers sampleData ⟨"8", "7", -9223372036854775808⟩).2
        ⟨"8", "7", -9223372036854775808⟩).1 = OrderPaid ∧
      (PayOrder sampleHelpers
        (PayOrder sampleHelpers sampleData ⟨"8", "7", -9223372036854775808⟩).2
        ⟨"8", "7", -9223372036854775808⟩).2 (BalanceKeyPrefix ++ "7") =
          some "-9223372036854775708" ∧
      Atoi "100" - -9223372036854775808 = 9223372036854775908) := by
  decide

/-- C11 (amended): exactly-once payment. When the order exists unpaid, the balance of the
payer is at least the amount and `parseOrderValue` reads back the paid flag written by
`composeOrderValue`, two `PayOrder` calls in a row with the same arguments reply OK and
then OrderPaid, and the second call leaves the store as the first left it, for every
payer. For a payer other than the root user the balance after both calls is its initial
balance minus the amount, subtracted once and computed as a 64-bit Go `int`: the exact
difference whenever that does not exceed the largest `int`, in particular for every
non-negative amount. For the root user as payer the balance is debited once and credited
once and ends at its initial value. -/
theorem PayOrder_twice_debits_once (h : Helpers) (data : Data) (args : PayOrderArgs)
    (ov vp : String)
    (hflag : ∀ price num detail,
      (h.parseOrderValue (h.composeOrderValue true price num detail)).1 = true)
    (horder : data (OrderKeyPrefix ++ args.OrderIDStr) = some ov)
    (hunpaid : (h.parseOrderValue ov).1 = false)
    (hp : data (BalanceKeyPrefix ++ args.UserToken) = some vp)
    (hge : args.Delta ≤ Atoi vp) :
    (PayOrder h data args).1 = OK ∧
      (PayOrder h (PayOrder h data args).2 args).1 = OrderPaid ∧
      (PayOrder h (PayOrder h data args).2 args).2 = (PayOrder h data args).2 ∧
      (args.UserToken ≠ h.RootUserToken →
        Atoi ((PayOrder h (PayOrder h data args).2 args).2.read
          (BalanceKeyPrefix ++ args.UserToken)) = goSub (Atoi vp) args.Delta ∧
        (Atoi vp - args.Delta ≤ maxInt →
          Atoi ((PayOrder h (PayOrder h data args).2 args).2.read
            (BalanceKeyPrefix ++ args.UserToken)) = Atoi vp - args.Delta) ∧
        (0 ≤ args.Delta →
          Atoi ((PayOrder h (PayOrder h data args).2 args).2.read
            (BalanceKeyPrefix ++ args.UserToken)) = Atoi vp - args.Delta)) ∧
      (args.UserToken = h.RootUserToken →
        Atoi ((PayOrder h (PayOrder h data args).2 args).2.read
          (BalanceKeyPrefix ++ args.UserToken)) = Atoi vp) := by
  have hread : data.read (OrderKeyPrefix ++ args.OrderIDStr) = ov := by
    simp [Data.read, horder]
  have hstep := PayOrder_debit h data args vp (by rw [hread]; exact hunpaid) hp (by omega)
  have hok : (PayOrder h data args).1 = OK := by rw [hstep]
  have hsecond := PayOrder_paid h (PayOrder h data args).2 args
    (PayOrder_ok_paid h data args hflag hok)
  have hstore : (PayOrder h (PayOrder h data args).2 args).2 = (PayOrder h data args).2 := by
    rw [hsecond]
  refine ⟨hok, by rw [hsecond], hstore, ?_, ?_⟩
  · intro hne
    obtain ⟨hafter, _⟩ := PayOrder_ok_debit h data args vp hne hp hok
    have hbal : Atoi ((PayOrder h (PayOrder h data args).2 args).2.read
        (BalanceKeyPrefix ++ args.UserToken)) = goSub (Atoi vp) args.Delta := by
      rw [hstore]
      simp only [Data.read, hafter, Option.getD_some]
      exact Atoi_Itoa_wrap _
    have hfit : Atoi vp - args.Delta ≤ maxInt →
        goSub (Atoi vp) args.Delta = Atoi vp - args.Delta := by
      intro hmax
      unfold goSub
      exact wrapInt_of_range _ (by unfold minInt; omega) hmax
    refine ⟨hbal, fun hmax => by rw [hbal, hfit hmax], fun h0 => ?_⟩
    have hmax : Atoi vp - args.Delta ≤ maxInt := by
      have := (Atoi_range vp).2
      omega
    rw [hbal, hfit hmax]
  · intro heq
    have hafter := PayOrder_ok_root_payer h data args vp heq hp hok
    rw [hstore]
    simp only [Data.read, hafter, Option.getD_some]
    exact Atoi_Itoa _ (Atoi_range vp).1 (Atoi_range vp).2

theorem PayOrder_twice_debits_once_witness :
    ((PayOrder sampleHelpers sampleData ⟨"8", "7", 10⟩).1 = OK ∧
      (PayOrder sampleHelpers (PayOrder sampleHelpers sampleData ⟨"8", "7", 10⟩).2
        ⟨"8", "7", 10⟩).1 = OrderPaid ∧
      (PayOrder sampleHelpers (PayOrder sampleHelpers sampleData ⟨"8", "7", 10⟩).2
        ⟨"8", "7", 10⟩).2 = (PayOrder sampleHelpers sampleData ⟨"8", "7", 10⟩).2 ∧
      Atoi ((PayOrder sampleHelpers (PayOrder sampleHelpers sampleData ⟨"8", "7", 10⟩).2
        ⟨"8", "7", 10⟩).2.read (BalanceKeyPrefix ++ "7")) = Atoi "100" - 10) ∧
    ((PayOrder sampleHelpers sampleData ⟨"8", "0", 10⟩).1 = OK ∧
      (PayOrder sampleHelpers (PayOrder sampleHelpers sampleData ⟨"8", "0", 10⟩).2
        ⟨"8", "0", 10⟩).1 = OrderPaid ∧
      Atoi ((PayOrder sampleHelpers (PayOrder sampleHelpers sampleData ⟨"8", "0", 10⟩).2
        ⟨"8", "0", 10⟩).2.read (BalanceKeyPrefix ++ "0")) = Atoi "50") := by
  have hflag : ∀ price num detail, (sampleHelpers.parseOrderValue
      (sampleHelpers.composeOrderValue true price num detail)).1 = true :=
    fun price num detail => by simp [sampleHelpers, String.data_append]
  obtain ⟨h1, h2, h3, h4, _⟩ :=
    PayOrder_twice_debits_once sampleHelpers sampleData ⟨"8", "7", 10⟩ "W;10;1" "100"
      hflag (by decide) (by decide) (by decide) (by decide)
  obtain ⟨g1, g2, _, _, g5⟩ :=
    PayOrder_twice_debits_once sampleHelpers sampleData ⟨"8", "0", 10⟩ "W;10;1" "50"
      hflag (by decide) (by decide) (by decide) (by decide)
  exact ⟨⟨h1, h2, h3, (h4 (by decide)).2.2 (by decide)⟩, g1, g2, g5 rfl⟩

/-! ## Lemmas: `SubmitOrder` on a permuted cart -/

theorem SubmitOrderCart_short (h : Helpers) (data : Data) (args : SubmitOrderArgs) (num : Int)
    (c : Cart) (hs : stockShort data c.items = true) :
    SubmitOrderCart h data args num c = (OutOfStock, data) := by
  simp [SubmitOrderCart, hs]

theorem SubmitOrderCart_limit (h : Helpers) (data : Data) (args : SubmitOrderArgs) (num : Int)
    (c : Cart) (hs : stockShort data c.items = false)
    (ho : (data (OrderKeyPrefix ++ args.UserToken)).isSome = true) :
    SubmitOrderCart h data args num c = (OrderOutOfLimit, data) := by
  simp [SubmitOrderCart, hs, ho]

theorem SubmitOrderCart_ok (h : Helpers) (data : Data) (args : SubmitOrderArgs) (num : Int)
    (c : Cart) (hs : stockShort data c.items = false)
    (ho : data (OrderKeyPrefix ++ args.UserToken) = none) :
    SubmitOrderCart h data args num c =
      (OK, (deductStock data 0 c.items).1.put (OrderKeyPrefix ++ args.UserToken)
        (h.composeOrderValue false (deductStock data 0 c.items).2 num c)) := by
  simp [SubmitOrderCart, hs, ho]

/-- C14 (as stated, refuted): the cart of one unit of item 1 and one unit of item 5 and
the same cart with its two pairs swapped give, with an order format that writes the
pairs in the order of the list, two different order values, hence two different stores
after the call. -/
theorem SubmitOrder_order_record_follows_cart_order :
    cartPairSwapped.items.Perm cartPair.items ∧
      SubmitOrder codecHelpers orderBook ⟨"1", "7", "2;1:1;5:1"⟩ =
        SubmitOrderCart codecHelpers orderBook ⟨"1", "7", "2;1:1;5:1"⟩ 2 cartPair ∧
      (SubmitOrderCart codecHelpers orderBook ⟨"1", "7", "2;1:1;5:1"⟩ 2 cartPair).2
        (OrderKeyPrefix ++ "7") = some "W;17;2;1;1;5;1;" ∧
      (SubmitOrderCart codecHelpers orderBook ⟨"1", "7", "2;1:1;5:1"⟩ 2 cartPairSwapped).2
        (OrderKeyPrefix ++ "7") = some "W;17;2;5;1;1;1;" ∧
      SubmitOrderCart codecHelpers orderBook ⟨"1", "7", "2;1:1;5:1"⟩ 2 cartPairSwapped ≠
        SubmitOrderCart codecHelpers orderBook ⟨"1", "7", "2;1:1;5:1"⟩ 2 cartPair := by
  refine ⟨List.Perm.swap _ _ _, rfl, by decide, by decide, ?_⟩
  intro heq
  have hkey := congrFun (congrArg Prod.snd heq) (OrderKeyPrefix ++ "7")
  revert hkey
  decide

/-- C14 (amended): `SubmitOrder` is the function `SubmitOrderCart` of the parsed cart, and
for two carts that are permutations of each other it produces the same reply status, the
same order total and the same value under every key other than the order key of the
caller. When the reply is OK the order key of the caller holds
`composeOrderValue(false, total, num, cart)` of the cart as it was given, so the two final
stores are equal exactly when `composeOrderValue` gives the same text for the two orders
of the pairs. -/
theorem SubmitOrder_order_independent (h : Helpers) (data : Data) (args : SubmitOrderArgs)
    (num : Int) (c1 c2 : Cart) (hperm : c1.items.Perm c2.items) :
    SubmitOrder h data args =
        SubmitOrderCart h data args (h.parseCartValue args.CartValue).1
          (h.parseCartValue args.CartValue).2 ∧
      (SubmitOrderCart h data args num c1).1 = (SubmitOrderCart h data args num c2).1 ∧
      (deductStock data 0 c1.items).2 = (deductStock data 0 c2.items).2 ∧
      (∀ k : String, k ≠ OrderKeyPrefix ++ args.UserToken →
        (SubmitOrderCart h data args num c1).2 k = (SubmitOrderCart h data args num c2).2 k) ∧
      ((SubmitOrderCart h data args num c1).1 = OK →
        (SubmitOrderCart h data args num c1).2 (OrderKeyPrefix ++ args.UserToken) =
          some (h.composeOrderValue false (deductStock data 0 c1.items).2 num c1) ∧
        (SubmitOrderCart h data args num c2).2 (OrderKeyPrefix ++ args.UserToken) =
          some (h.composeOrderValue false (deductStock data 0 c1.items).2 num c2) ∧
        (SubmitOrderCart h data args num c1 = SubmitOrderCart h data args num c2 ↔
          h.composeOrderValue false (deductStock data 0 c1.items).2 num c1 =
            h.composeOrderValue false (deductStock data 0 c1.items).2 num c2)) ∧
      ((SubmitOrderCart h data args num c1).1 ≠ OK →
        SubmitOrderCart h data args num c1 = SubmitOrderCart h data args num c2) := by
  have hd := deductStock_perm data c1.items c2.items hperm c2.nodup
  have hshort := stockShort_perm data c1.items c2.items hperm
  refine ⟨rfl, ?_, by rw [hd], ?_, ?_, ?_⟩
  · cases hs : stockShort data c1.items with
    | true =>
      rw [SubmitOrderCart_short h data args num c1 hs,
        SubmitOrderCart_short h data args num c2 (hshort ▸ hs)]
    | false =>
      cases ho : data (OrderKeyPrefix ++ args.UserToken) with
      | none =>
        rw [SubmitOrderCart_ok h data args num c1 hs ho,
          SubmitOrderCart_ok h data args num c2 (hshort ▸ hs) ho]
      | some v =>
        rw [SubmitOrderCart_limit h data args num c1 hs (by simp [ho]),
          SubmitOrderCart_limit h data args num c2 (hshort ▸ hs) (by simp [ho])]
  · intro k hk
    cases hs : stockShort data c1.items with
    | true =>
      rw [SubmitOrderCart_short h data args num c1 hs,
        SubmitOrderCart_short h data args num c2 (hshort ▸ hs)]
    | false =>
      cases ho : data (OrderKeyPrefix ++ args.UserToken) with
      | none =>
        rw [SubmitOrderCart_ok h data args num c1 hs ho,
          SubmitOrderCart_ok h data args num c2 (hshort ▸ hs) ho]
        simp only
        rw [put_other _ _ _ _ hk, put_other _ _ _ _ hk, hd]
      | some v =>
        rw [SubmitOrderCart_limit h data args num c1 hs (by simp [ho]),
          SubmitOrderCart_limit h data args num c2 (hshort ▸ hs) (by simp [ho])]
  · intro hok
    cases hs : stockShort data c1.items with
    | true =>
      rw [SubmitOrderCart_short h data args num c1 hs] at hok
      exact absurd hok (show OutOfStock ≠ OK by decide)
    | false =>
      cases ho : data (OrderKeyPrefix ++ args.UserToken) with
      | some v =>
        rw [SubmitOrderCart_limit h data args num c1 hs (by simp [ho])] at hok
        exact absurd hok (show OrderOutOfLimit ≠ OK by decide)
      | none =>
        rw [SubmitOrderCart_ok h data args num c1 hs ho,
          SubmitOrderCart_ok h data args num c2 (hshort ▸ hs) ho]
        simp only
        rw [put_same, put_same, ← hd]
        refine ⟨rfl, rfl, ?_⟩
        constructor
        · intro heq
          have hkey := congrFun (congrArg Prod.snd heq) (OrderKeyPrefix ++ args.UserToken)
          simp only [put_same, Option.some.injEq] at hkey
          exact hkey
        · intro heq
          rw [heq]
  · intro hrej
    cases hs : stockShort data c1.items with
    | true =>
      rw [SubmitOrderCart_short h data args num c1 hs,
        SubmitOrderCart_short h data args num c2 (hshort ▸ hs)]
    | false =>
      cases ho : data (OrderKeyPrefix ++ args.UserToken) with
      | none =>
        rw [SubmitOrderCart_ok h data args num c1 hs ho] at hrej
        exact absurd rfl hrej
      | some v =>
        rw [SubmitOrderCart_limit h data args num c1 hs (by simp [ho]),
          SubmitOrderCart_limit h data args num c2 (hshort ▸ hs) (by simp [ho])]

theorem SubmitOrder_order_independent_witness :
    (SubmitOrderCart codecHelpers orderBook ⟨"1", "7", "2;1:1;5:1"⟩ 2 cartPairSwapped).1 =
        (SubmitOrderCart codecHelpers orderBook ⟨"1", "7", "2;1:1;5:1"⟩ 2 cartPair).1 ∧
      (deductStock orderBook 0 cartPairSwapped.items).2 =
        (deductStock orderBook 0 cartPair.items).2 ∧
      (SubmitOrderCart codecHelpers orderBook ⟨"1", "7", "2;1:1;5:1"⟩ 2 cartPairSwapped).2
          "items_stock:5" =
        (SubmitOrderCart codecHelpers orderBook ⟨"1", "7", "2;1:1;5:1"⟩ 2 cartPair).2
          "items_stock:5" ∧
      (SubmitOrderCart codecHelpers orderBook ⟨"1", "7", "2;1:1;5:1"⟩ 2 cartPairSwapped).2
          (OrderKeyPrefix ++ "7") =
        some (codecHelpers.composeOrderValue false
          (deductStock orderBook 0 cartPairSwapped.items).2 2 cartPairSwapped) := by
  obtain ⟨_, h2, h3, h4, h5, _⟩ :=
    SubmitOrder_order_independent codecHelpers orderBook ⟨"1", "7", "2;1:1;5:1"⟩ 2
      cartPairSwapped cartPair (List.Perm.swap _ _ _)
  exact ⟨h2, h3, h4 "items_stock:5" (by decide), (h5 (by decide)).1⟩

/-- C15: what `PayOrder` does when the order key of the call is absent, for every choice
of the helper functions. The value read at line 121 is then the empty string, and the
order key exists after the call exactly when `parseOrderValue` of the empty string is not
paid and the balance check passes (the payer has no balance key, or a balance of at least
the amount): line 144 writes the key without testing that it existed. Every other key
present after the call was present before it. -/
theorem PayOrder_absent_order (h : Helpers) (data : Data) (args : PayOrderArgs)
    (habs : data (OrderKeyPrefix ++ args.OrderIDStr) = none) :
    (((PayOrder h data args).2 (OrderKeyPrefix ++ args.OrderIDStr)).isSome = true ↔
      ((h.parseOrderValue "").1 = false ∧
        ∀ v, data (BalanceKeyPrefix ++ args.UserToken) = some v → args.Delta ≤ Atoi v)) ∧
    (∀ k : String, k ≠ OrderKeyPrefix ++ args.OrderIDStr →
      ((PayOrder h data args).2 k).isSome = true → (data k).isSome = true) := by
  have hread : data.read (OrderKeyPrefix ++ args.OrderIDStr) = "" := by
    simp [Data.read, habs]
  constructor
  · constructor
    · intro hsome
      cases hp : (h.parseOrderValue "").1 with
      | true =>
        rw [congrArg Prod.snd (PayOrder_paid h data args (by rw [hread]; exact hp))] at hsome
        simp [habs] at hsome
      | false =>
        refine ⟨rfl, ?_⟩
        intro v hv
        by_cases hlt : Atoi v < args.Delta
        · rw [congrArg Prod.snd
            (PayOrder_short h data args v (by rw [hread]; exact hp) hv hlt)] at hsome
          simp [habs] at hsome
        · omega
    · intro ⟨hp, hbal⟩
      apply PayOrder_ok_writes_order
      cases hb : data (BalanceKeyPrefix ++ args.UserToken) with
      | none => rw [PayOrder_no_account h data args (by rw [hread]; exact hp) hb]
      | some v =>
        have hge := hbal v hb
        rw [PayOrder_debit h data args v (by rw [hread]; exact hp) hb (by omega)]
  · intro k hk hsome
    rcases (PayOrder_present_after h data args).1 k hsome with hin | ⟨hin, _⟩
    · exact hin
    · exact absurd hin hk

theorem PayOrder_absent_order_witness :
    fullStockData (OrderKeyPrefix ++ "8") = none ∧
      (sampleHelpers.parseOrderValue "").1 = false ∧
      ((PayOrder sampleHelpers fullStockData ⟨"8", "7", 10⟩).2 (OrderKeyPrefix ++ "8")).isSome =
        true := by
  have hnone : fullStockData (BalanceKeyPrefix ++ "7") = none := by decide
  exact ⟨by decide, by decide,
    (PayOrder_absent_order sampleHelpers fullStockData ⟨"8", "7", 10⟩ (by decide)).1.2
      ⟨by decide, fun v hv => by rw [hnone] at hv; cases hv⟩⟩

end Shopping
